import Mathlib


/-!
Verification of the text-classification and extraction engine of the
build-log-filter repository.

The JavaScript sources are shallowly embedded over `Str := List Char`:

* `src/server.js` — GUI server: `isUnityTestXml`, `filterUnityTestResults`,
  `filterBuildLog`, `formatMinimal`.
* `src/mcp-http-server.js` — MCP HTTP server: `localIsUnityTestXml`,
  `localFilterBuildLog`, `localFilterUnityTestResults`.
* `src/unnamed/part_001` — combined (Vercel) server: its `isUnityTestXml`
  detector, embedded as `combinedIsUnityTestXml`.

JavaScript string operations (`trim`, `includes`, `startsWith`, `indexOf`,
`split`, `search(/\S/)`) are embedded as executable functions on `Str`;
the regular expressions of the pattern library are embedded as explicit
matchers that reproduce the JS engine's leftmost-first, greedy,
backtracking behaviour on the concrete pattern shapes used by the code.
All definitions are total and computable, so every concrete scenario can
be settled by `decide`.
-/

/-- Strings are modelled as lists of characters (JS UTF-16 code units;
all inputs considered here are in the BMP, where the two views agree). -/
abbrev Str := List Char

/-- The JS whitespace class (ASCII part), as used by `String.prototype.trim`
and by the `\s` / `\S` regex classes. -/
def wsJS (c : Char) : Bool :=
  c = ' ' || c = '\t' || c = '\n' || c = '\r' || c = '\x0b' || c = '\x0c'

/-- Boolean prefix test (JS `startsWith`, with the prefix as first argument). -/
def isPfx : Str → Str → Bool
  | [], _ => true
  | _ :: _, [] => false
  | a :: as, b :: bs => a = b && isPfx as bs

/-- JS `haystack.includes(needle)`. -/
def jsIncludes : Str → Str → Bool
  | [], needle => needle.isEmpty
  | s@(_ :: t), needle => isPfx needle s || jsIncludes t needle

/-- JS `haystack.indexOf(needle)` (as an option instead of `-1`). -/
def jsIndexOf : Str → Str → Option Nat
  | [], needle => if needle.isEmpty then some 0 else none
  | s@(_ :: t), needle =>
    if isPfx needle s then some 0 else (jsIndexOf t needle).map (· + 1)

/-- JS `s.split(tok)[0]`: everything before the first occurrence of `tok`
(the whole string if `tok` does not occur). -/
def takeBefore (s tok : Str) : Str :=
  match jsIndexOf s tok with
  | some i => s.take i
  | none => s

/-- JS `trimStart`. -/
def jsTrimStart (s : Str) : Str := s.dropWhile wsJS

/-- JS `trimEnd`. -/
def jsTrimEnd (s : Str) : Str := (s.reverse.dropWhile wsJS).reverse

/-- JS `trim`. -/
def jsTrim (s : Str) : Str := jsTrimEnd (jsTrimStart s)

/-- JS `s.split('\n')` (never empty: splitting the empty string yields `[""]`). -/
def splitNL : Str → List Str
  | [] => [[]]
  | c :: t =>
    let r := splitNL t
    if c = '\n' then [] :: r
    else
      match r with
      | h :: rt => (c :: h) :: rt
      | [] => [[c]]

/-- JS `lines.join('\n')`. -/
def joinNL : List Str → Str
  | [] => []
  | [x] => x
  | x :: y :: r => x ++ '\n' :: joinNL (y :: r)

/-- Index of the first non-whitespace character. -/
def firstNonWs : Str → Option Nat
  | [] => none
  | c :: t => if wsJS c then (firstNonWs t).map (· + 1) else some 0

/-- JS `line.search(/\S/)`: index of the first non-whitespace character,
`-1` when the line is all whitespace. -/
def jsSearchNonWs (s : Str) : Int :=
  match firstNonWs s with
  | some n => (n : Int)
  | none => -1

/-- Numeric value of a digit string (JS `parseInt` on a `\d+` capture). -/
def natOfDigits (s : Str) : Nat :=
  s.foldl (fun a c => a * 10 + (c.toNat - 48)) 0

/-- Decimal rendering of a number, as a character list. -/
def natStr (n : Nat) : Str := (Nat.repr n).data

/-- JS default lexicographic string order (by code unit). -/
def lexLt : Str → Str → Bool
  | [], [] => false
  | [], _ :: _ => true
  | _ :: _, [] => false
  | a :: as, b :: bs => a.val < b.val || (a = b && lexLt as bs)

/-- Insert into a lexicographically sorted list. -/
def insSorted (x : Str) : List Str → List Str
  | [] => [x]
  | y :: t => if lexLt x y then x :: y :: t else y :: insSorted x t

/-- JS `Array.from(set).sort()`. -/
def sortStrs (l : List Str) : List Str := l.foldr insSorted []

/-- JS `Set.prototype.add` on a set kept in insertion order. -/
def addSet (l : List Str) (x : Str) : List Str :=
  if l.contains x then l else l ++ [x]

/-! ## Content-kind detectors -/

/-- `isUnityTestXml` of `src/server.js` (lines 21–24): requires the
`testcasecount` marker. -/
def isUnityTestXml (content : Str) : Bool :=
  let trimmed := jsTrim content
  isPfx "<?xml".data trimmed && jsIncludes trimmed "<test-run".data &&
    jsIncludes trimmed "testcasecount".data

/-- `localIsUnityTestXml` of `src/mcp-http-server.js` (lines 32–36): requires
a `<test-case` marker; the two `includes` checks are on the untrimmed text. -/
def localIsUnityTestXml (content : Str) : Bool :=
  isPfx "<?xml".data (jsTrim content) && jsIncludes content "<test-run".data &&
    jsIncludes content "<test-case".data

/-- `isUnityTestXml` of `src/unnamed/part_001` (lines 32–35): accepts either
the `testcasecount` marker or a `<test-case` marker. -/
def combinedIsUnityTestXml (content : Str) : Bool :=
  let trimmed := jsTrim content
  isPfx "<?xml".data trimmed && jsIncludes trimmed "<test-run".data &&
    (jsIncludes trimmed "testcasecount".data || jsIncludes trimmed "<test-case".data)

/-- The detector as worded by the claim/spec (§4.1): trim leading whitespace;
TestResults iff the text begins with `<?xml` AND contains `<test-run` AND
contains `testcasecount` or `<test-case`. -/
def specDetectTestResults (text : Str) : Bool :=
  let t := jsTrimStart text
  isPfx "<?xml".data t && jsIncludes t "<test-run".data &&
    (jsIncludes t "testcasecount".data || jsIncludes t "<test-case".data)

/-- The spec-worded predicate restricted to the `testcasecount` marker
(what `src/server.js` actually implements). -/
def specDetectOnlyCaseCount (text : Str) : Bool :=
  let t := jsTrimStart text
  isPfx "<?xml".data t && jsIncludes t "<test-run".data &&
    jsIncludes t "testcasecount".data

/-- The spec-worded predicate restricted to the `<test-case` marker
(what `src/mcp-http-server.js` actually implements). -/
def specDetectOnlyTestCase (text : Str) : Bool :=
  let t := jsTrimStart text
  isPfx "<?xml".data t && jsIncludes t "<test-run".data &&
    jsIncludes t "<test-case".data

/-! ## Pattern library (§4.2)

Each JS regular expression used by the build-log pipeline is embedded as a
matcher `Option Char → Str → Bool` taking the character preceding the match
position (for `\b`) and the suffix starting at the position.  `testPat`
tries every position, reproducing the engine's leftmost search; literal
parts are matched case-insensitively (`/i`), and the greedy `[A-Z]+`/`\d+`
quantifiers are maximal-munch (their follow sets are disjoint from the
classes, so no backtracking can occur inside these patterns). -/

/-- JS `\w` / the word class `[A-Za-z0-9_]`. -/
def isWordChar (c : Char) : Bool := c.isAlpha || c.isDigit || c = '_'

/-- Case-insensitive literal match, returning the rest of the input. -/
def litCI : Str → Str → Option Str
  | [], s => some s
  | _ :: _, [] => none
  | p :: ps, c :: cs => if p.toLower = c.toLower then litCI ps cs else none

/-- Greedy `cls+`: one or more characters of a class, maximal munch. -/
def plusCls (cls : Char → Bool) : Str → Option Str
  | [] => none
  | c :: t => if cls c then some (t.dropWhile cls) else none

/-- A single expected character. -/
def expectCh (ch : Char) : Str → Option Str
  | [] => none
  | c :: t => if c = ch then some t else none

/-- `\b` before a word character: start of string or non-word predecessor. -/
def boundaryOk : Option Char → Bool
  | none => true
  | some c => !isWordChar c

/-- `\b` after a word character: end of string or non-word successor. -/
def boundaryAfter : Str → Bool
  | [] => true
  | c :: _ => !isWordChar c

/-- `[A-Z]+\d+:` (with `/i`). -/
def codeTail (r : Str) : Bool :=
  (((plusCls Char.isAlpha r).bind (plusCls Char.isDigit)).bind (expectCh ':')).isSome

/-- `/\berror [A-Z]+\d+:/i` (MSVC-style `error C2065:`). -/
def patErrCode (prev : Option Char) (s : Str) : Bool :=
  boundaryOk prev && (match litCI "error ".data s with
    | some r => codeTail r
    | none => false)

/-- `/\berror MSB\d+:/i`. -/
def patErrMSB (prev : Option Char) (s : Str) : Bool :=
  boundaryOk prev &&
    (((litCI "error msb".data s).bind (plusCls Char.isDigit)).bind (expectCh ':')).isSome

/-- `/\berror LNK\d+:/i`. -/
def patErrLNK (prev : Option Char) (s : Str) : Bool :=
  boundaryOk prev &&
    (((litCI "error lnk".data s).bind (plusCls Char.isDigit)).bind (expectCh ':')).isSome

/-- `/\bfatal error\b/i`. -/
def patFatal (prev : Option Char) (s : Str) : Bool :=
  boundaryOk prev && (match litCI "fatal error".data s with
    | some r => boundaryAfter r
    | none => false)

/-- `/\bERROR:/i`. -/
def patErrorColon (prev : Option Char) (s : Str) : Bool :=
  boundaryOk prev && (litCI "ERROR:".data s).isSome

/-- `/\): error :/i` (UHT `filename.h(line): error : message`). -/
def patUhtColon (_prev : Option Char) (s : Str) : Bool :=
  (litCI "): error :".data s).isSome

/-- `/\): error \w/i` (UHT alternative). -/
def patUhtWord (_prev : Option Char) (s : Str) : Bool :=
  match litCI "): error ".data s with
  | some (c :: _) => isWordChar c
  | _ => false

/-- `/\bSetEnv task failed/i`. -/
def patSetEnv (prev : Option Char) (s : Str) : Bool :=
  boundaryOk prev && (litCI "setenv task failed".data s).isSome

/-- `/\bfailed unexpectedly/i`. -/
def patFailedUnexp (prev : Option Char) (s : Str) : Bool :=
  boundaryOk prev && (litCI "failed unexpectedly".data s).isSome

/-- `/\bCannot open include file/i`. -/
def patCannotOpen (prev : Option Char) (s : Str) : Bool :=
  boundaryOk prev && (litCI "cannot open include file".data s).isSome

/-- `/\bunresolved external symbol/i`. -/
def patUnresolved (prev : Option Char) (s : Str) : Bool :=
  boundaryOk prev && (litCI "unresolved external symbol".data s).isSome

/-- `/\bwarning [A-Z]+\d+:/i` — the single warning pattern. -/
def patWarnCode (prev : Option Char) (s : Str) : Bool :=
  boundaryOk prev && (match litCI "warning ".data s with
    | some r => codeTail r
    | none => false)

/-- Try a position-matcher at every position of the line (regex search). -/
def scanPat (f : Option Char → Str → Bool) : Option Char → Str → Bool
  | prev, [] => f prev []
  | prev, s@(c :: t) => f prev s || scanPat f (some c) t

/-- `pattern.test(line)`. -/
def testPat (f : Option Char → Str → Bool) (line : Str) : Bool :=
  scanPat f none line

/-- The eleven error patterns of `filterBuildLog` in `src/server.js`
(lines 329–341), in source order. -/
def errorPatternsServer : List (Option Char → Str → Bool) :=
  [patErrCode, patErrMSB, patErrLNK, patFatal, patErrorColon, patUhtColon,
   patUhtWord, patSetEnv, patFailedUnexp, patCannotOpen, patUnresolved]

/-- The ten error patterns of `localFilterBuildLog` in
`src/mcp-http-server.js` (lines 60–71): the server list without
`/\): error \w/i`. -/
def errorPatternsMcp : List (Option Char → Str → Bool) :=
  [patErrCode, patErrMSB, patErrLNK, patFatal, patErrorColon, patUhtColon,
   patSetEnv, patFailedUnexp, patCannotOpen, patUnresolved]

/-- The seven error patterns of `formatMinimal` in `src/server.js`
(lines 469–477). -/
def errorPatternsMinimal : List (Option Char → Str → Bool) :=
  [patErrCode, patErrMSB, patErrLNK, patFatal, patErrorColon, patUhtColon,
   patUhtWord]

/-- `errorPatterns.some(p => p.test(line))` for the server list. -/
def isErrServer (line : Str) : Bool :=
  errorPatternsServer.any (fun f => testPat f line)

/-- Same for the MCP list. -/
def isErrMcp (line : Str) : Bool :=
  errorPatternsMcp.any (fun f => testPat f line)

/-- Same for the minimal-format list. -/
def isErrMinimal (line : Str) : Bool :=
  errorPatternsMinimal.any (fun f => testPat f line)

/-- `warningPattern.test(line)`. -/
def isWarnPat (line : Str) : Bool := testPat patWarnCode line

/-! ### File-reference pattern

`/([a-zA-Z0-9_]+\.(cpp|h|hpp|cs))\(?(\d+)?\)?/` — the code only uses capture
group 1.  At each position the word run is maximal (shorter runs are
followed by a word character, never by `.`), and the extension alternation
is tried in source order `cpp`, `h`, `hpp`, `cs`, with everything after
group 1 optional — so e.g. `File.hpp` yields the name `File.h`, exactly as
the JS engine does. -/

/-- First alternative (in order) that is a prefix of the rest of the line. -/
def extTry : List Str → Str → Option Str
  | [], _ => none
  | e :: es, r => if isPfx e r then some e else extTry es r

/-- Attempt the file pattern at one position. -/
def fileAt (s : Str) : Option Str :=
  let run := s.takeWhile isWordChar
  if run.isEmpty then none
  else
    match s.drop run.length with
    | '.' :: r2 =>
      (extTry ["cpp".data, "h".data, "hpp".data, "cs".data] r2).map
        (fun e => run ++ '.' :: e)
    | _ => none

/-- `line.match(filePattern)?.[1]`: leftmost match of the file pattern. -/
def fileNameOf : Str → Option Str
  | [] => none
  | s@(_ :: t) =>
    match fileAt s with
    | some f => some f
    | none => fileNameOf t

/-! ## Build-log extractor of `src/server.js` (`filterBuildLog`, lines 299–457) -/

/-- A retained error or warning record (`{line, message, context?}`). -/
structure BLRec where
  line : Nat
  message : Str
  context : Option (List Str) := none
deriving DecidableEq, Repr

/-- The destructured options of `filterBuildLog` with their defaults. -/
structure BLOpts where
  showWarnings : Bool := true
  contextLines : Nat := 0
  maxErrors : Nat := 9999
  maxWarnings : Nat := 9999
  fileFilter : Option Str := none
  fileFilters : List Str := []
deriving DecidableEq, Repr

/-- `fileFilters.length > 0 ? fileFilters : (fileFilter ? [fileFilter] : [])`. -/
def activeFilters (o : BLOpts) : List Str :=
  if o.fileFilters.isEmpty then
    match o.fileFilter with
    | some f => if f.isEmpty then [] else [f]
    | none => []
  else o.fileFilters

/-- The per-line file-filter test (`matchesFile` in the source). -/
def matchesFileB (filters : List Str) (line : Str) : Bool :=
  if filters.isEmpty then true
  else
    match fileNameOf line with
    | some fn => filters.any (fun flt => jsIncludes fn flt || jsIncludes flt fn)
    | none => false

/-- Mutable scan state of the second pass of `filterBuildLog`: the local
counters, the `results.summary` counters and the two retained lists. -/
structure BLState where
  errorCount : Nat := 0
  warningCount : Nat := 0
  summaryErrorCount : Nat := 0
  summaryWarningCount : Nat := 0
  errors : List BLRec := []
  warnings : List BLRec := []
deriving DecidableEq, Repr

/-- The optional context block attached to a retained error (lines 395–398):
up to `contextLines` preceding raw lines, trimmed, only when
`contextLines > 0`. -/
def ctxOf (o : BLOpts) (allLines : List Str) (i : Nat) : Option (List Str) :=
  if 0 < o.contextLines then
    some (((allLines.drop (i - o.contextLines)).take
      (i - (i - o.contextLines))).map jsTrim)
  else none

/-- One iteration of the second pass (lines 365–411): classify, filter,
retain under the caps, and update the summary counters. -/
def stepBL (o : BLOpts) (allLines : List Str) (st : BLState) (p : Nat × Str) :
    BLState :=
  let i := p.1
  let line := p.2
  let isError := isErrServer line
  let isWarning := !isError && isWarnPat line
  let mf := matchesFileB (activeFilters o) line
  let st1 :=
    if isError && decide (st.errorCount < o.maxErrors) && mf then
      { st with
        errorCount := st.errorCount + 1,
        summaryErrorCount := st.errorCount + 1,
        errors := st.errors ++
          [{ line := i + 1, message := jsTrim line, context := ctxOf o allLines i }] }
    else st
  if isWarning && o.showWarnings && decide (st1.warningCount < o.maxWarnings) && mf then
    { st1 with
      warningCount := st1.warningCount + 1,
      summaryWarningCount := st1.warningCount + 1,
      warnings := st1.warnings ++ [{ line := i + 1, message := jsTrim line }] }
  else st1

/-- First pass of `filterBuildLog` (lines 349–362): discover files on
error/warning lines, ignoring the file filter, then sort. -/
def buildLogFiles (pats : List (Option Char → Str → Bool)) (lines : List Str) :
    List Str :=
  sortStrs (lines.foldl
    (fun acc line =>
      let isError := pats.any (fun f => testPat f line)
      let isWarning := !isError && isWarnPat line
      if isError || isWarning then
        match fileNameOf line with
        | some f => addSet acc f
        | none => acc
      else acc) [])

/-- `results.summary` of `filterBuildLog`.  `filteredLines` is set by the
rendering step (line 453); the scan itself leaves it 0. -/
structure BLSummary where
  totalLines : Nat
  errorCount : Nat
  warningCount : Nat
  filteredLines : Nat
deriving DecidableEq, Repr

/-- The structured result of `filterBuildLog` (rendered text handled
separately by `renderBuildLogLines`). -/
structure BLResult where
  summary : BLSummary
  errors : List BLRec
  warnings : List BLRec
  files : List Str
deriving DecidableEq, Repr

/-- The extraction part of `filterBuildLog` (`src/server.js` lines 299–411). -/
def filterBuildLogCore (text : Str) (o : BLOpts) : BLResult :=
  let lines := splitNL text
  let st := lines.enum.foldl (stepBL o lines) {}
  { summary := { totalLines := lines.length,
                 errorCount := st.summaryErrorCount,
                 warningCount := st.summaryWarningCount,
                 filteredLines := 0 },
    errors := st.errors, warnings := st.warnings,
    files := buildLogFiles errorPatternsServer lines }

/-! ## `formatMinimal` of `src/server.js` (lines 462–547) -/

/-- Retained lists of `formatMinimal`'s second pass (lines 500–526); the
declared counts of its result are the list lengths themselves. -/
structure FMState where
  errors : List BLRec := []
  warnings : List BLRec := []
deriving DecidableEq, Repr

/-- One iteration of `formatMinimal`'s second pass (`if … else if …`). -/
def stepFM (o : BLOpts) (st : FMState) (p : Nat × Str) : FMState :=
  let line := p.2
  let isError := isErrMinimal line
  let isWarning := !isError && isWarnPat line
  let mf := matchesFileB (activeFilters o) line
  if isError && decide (st.errors.length < o.maxErrors) && mf then
    { st with errors := st.errors ++ [{ line := p.1 + 1, message := jsTrim line }] }
  else if isWarning && o.showWarnings && decide (st.warnings.length < o.maxWarnings) && mf then
    { st with warnings := st.warnings ++ [{ line := p.1 + 1, message := jsTrim line }] }
  else st

/-- The extraction part of `formatMinimal`. -/
def formatMinimalCore (text : Str) (o : BLOpts) : FMState :=
  (splitNL text).enum.foldl (stepFM o) {}

/-! ## Build-log extractor of `src/mcp-http-server.js`
(`localFilterBuildLog`, lines 38–143) -/

/-- A retained record of `localFilterBuildLog`: raw line content and raw
context lines (always present). -/
structure McpBLRec where
  line : Nat
  content : Str
  context : List Str := []
deriving DecidableEq, Repr

/-- Options of `localFilterBuildLog` with their defaults (`format` only
affects rendering). -/
structure McpBLOpts where
  showWarnings : Bool := true
  contextLines : Nat := 10
  maxErrors : Nat := 100
  maxWarnings : Nat := 20
deriving DecidableEq, Repr

/-- Scan state of `localFilterBuildLog`: note that the summary counters
are incremented outside the cap checks. -/
structure McpBLState where
  errorCount : Nat := 0
  warningCount : Nat := 0
  errors : List McpBLRec := []
  warnings : List McpBLRec := []
deriving DecidableEq, Repr

/-- Error phase of one `localFilterBuildLog` iteration (lines 78–92): retain
under the cap, but increment the summary counter unconditionally. -/
def stepMcpBLErr (o : McpBLOpts) (allLines : List Str) (st : McpBLState)
    (p : Nat × Str) : McpBLState :=
  let i := p.1
  let line := p.2
  let ctx : List Str :=
    (allLines.drop (i - o.contextLines)).take (i - (i - o.contextLines))
  if isErrMcp line then
    let st' :=
      if decide (st.errors.length < o.maxErrors) then
        { st with errors :=
            st.errors ++ [{ line := i + 1, content := line, context := ctx }] }
      else st
    { st' with errorCount := st'.errorCount + 1 }
  else st

/-- Warning phase of one `localFilterBuildLog` iteration (lines 94–102):
no `!isError` guard; count incremented outside the cap check. -/
def stepMcpBLWarn (o : McpBLOpts) (st : McpBLState) (p : Nat × Str) :
    McpBLState :=
  if o.showWarnings && isWarnPat p.2 then
    let st2 :=
      if decide (st.warnings.length < o.maxWarnings) then
        { st with warnings := st.warnings ++ [{ line := p.1 + 1, content := p.2 }] }
      else st
    { st2 with warningCount := st2.warningCount + 1 }
  else st

/-- One iteration of `localFilterBuildLog`'s loop (lines 75–103). -/
def stepMcpBL (o : McpBLOpts) (allLines : List Str) (st : McpBLState)
    (p : Nat × Str) : McpBLState :=
  stepMcpBLWarn o (stepMcpBLErr o allLines st p) p

/-- The structured result of `localFilterBuildLog` (rendering aside). -/
structure McpBLResult where
  totalLines : Nat
  errorCount : Nat
  warningCount : Nat
  errors : List McpBLRec
  warnings : List McpBLRec
deriving DecidableEq, Repr

/-- The extraction part of `localFilterBuildLog`. -/
def localFilterBuildLogCore (text : Str) (o : McpBLOpts) : McpBLResult :=
  let lines := splitNL text
  let st := lines.enum.foldl (stepMcpBL o lines) {}
  { totalLines := lines.length, errorCount := st.errorCount,
    warningCount := st.warningCount, errors := st.errors,
    warnings := st.warnings }

/-- The counting invariant of the `filterBuildLog` scan: the local counters,
the summary counters and the retained-list lengths move in lockstep, and the
lists never exceed their caps. -/
def BLCountsInv (o : BLOpts) (st : BLState) : Prop :=
  st.errorCount = st.errors.length ∧ st.summaryErrorCount = st.errorCount ∧
  st.warningCount = st.warnings.length ∧ st.summaryWarningCount = st.warningCount ∧
  st.errors.length ≤ o.maxErrors ∧ st.warnings.length ≤ o.maxWarnings

/-- Classification-origin invariant: every retained error comes from a line
classified as an error, every retained warning from a line classified as a
non-error. -/
def BLClassInv (E : List (Nat × Str)) (st : BLState) : Prop :=
  (∀ e ∈ st.errors, ∃ p ∈ E, e.line = p.1 + 1 ∧ isErrServer p.2 = true) ∧
  (∀ w ∈ st.warnings, ∃ p ∈ E, w.line = p.1 + 1 ∧ isErrServer p.2 = false)

/-- The file-containment predicate of claim C8: the line has an extractable
file name that contains, or is contained by, an active filter entry. -/
def fileOkB (filters : List Str) (line : Str) : Bool :=
  match fileNameOf line with
  | some fn => filters.any (fun flt => jsIncludes fn flt || jsIncludes flt fn)
  | none => false

/-- File-filter origin invariant for the retained records. -/
def BLFileInv (filters : List Str) (E : List (Nat × Str)) (st : BLState) : Prop :=
  (∀ e ∈ st.errors, ∃ p ∈ E, e.line = p.1 + 1 ∧ fileOkB filters p.2 = true) ∧
  (∀ w ∈ st.warnings, ∃ p ∈ E, w.line = p.1 + 1 ∧ fileOkB filters p.2 = true)

/-- Same invariant for `formatMinimal`'s pass. -/
def FMFileInv (filters : List Str) (E : List (Nat × Str)) (st : FMState) : Prop :=
  (∀ e ∈ st.errors, ∃ p ∈ E, e.line = p.1 + 1 ∧ fileOkB filters p.2 = true) ∧
  (∀ w ∈ st.warnings, ∃ p ∈ E, w.line = p.1 + 1 ∧ fileOkB filters p.2 = true)

/-- Classification-origin invariant for `formatMinimal`. -/
def FMClassInv (E : List (Nat × Str)) (st : FMState) : Prop :=
  (∀ e ∈ st.errors, ∃ p ∈ E, e.line = p.1 + 1 ∧ isErrMinimal p.2 = true) ∧
  (∀ w ∈ st.warnings, ∃ p ∈ E, w.line = p.1 + 1 ∧ isErrMinimal p.2 = false)

/-- The warning-side projection of the `filterBuildLog` scan state. -/
def warnView (st : BLState) : Nat × Nat × List BLRec :=
  (st.warningCount, st.summaryWarningCount, st.warnings)

/-! ## Test-results extractor of `src/server.js`
(`filterUnityTestResults`, lines 61–291) -/

/-- First match of an attribute pattern `key="([^"]+)"` anywhere in the
input, as the JS engine finds it: at each position the literal key must be
followed by one or more non-quote characters and a closing quote, otherwise
the search continues at the next position. -/
def attrVal : Str → Str → Option Str
  | [], _ => none
  | s@(_ :: tl), key =>
    if isPfx key s then
      let after := s.drop key.length
      let v := after.takeWhile (fun c => c ≠ '"')
      if !v.isEmpty && decide (v.length < after.length) then some v
      else attrVal tl key
    else attrVal tl key

/-- `extractTestName` (lines 42–45): `/name="([^"]+)"/`. -/
def extractTestName (s : Str) : Option Str := attrVal s "name=\"".data

/-- `extractFullname` (lines 50–53): `/fullname="([^"]+)"/`. -/
def extractFullname (s : Str) : Option Str := attrVal s "fullname=\"".data

/-- One position of `/([A-Za-z0-9_]+\.cs):(\d+)/` (group 1). -/
def csFileAt (s : Str) : Option Str :=
  let run := s.takeWhile isWordChar
  if run.isEmpty then none
  else
    let rest := s.drop run.length
    if isPfx ".cs:".data rest then
      match (rest.drop 4).head? with
      | some d => if d.isDigit then some (run ++ ".cs".data) else none
      | none => none
    else none

/-- Leftmost match of the stack-trace file pattern (line 210). -/
def csFileOf : Str → Option Str
  | [] => none
  | s@(_ :: t) =>
    match csFileAt s with
    | some f => some f
    | none => csFileOf t

/-- The in-progress failed-test record (`currentTest`). -/
structure UTest where
  name : Option Str
  fullname : Option Str
  message : Str
  stackTrace : Str
  output : Str
deriving DecidableEq, Repr

/-- The scan state of `filterUnityTestResults`' loop (lines 86–91). -/
structure UState where
  inFailed : Bool := false
  current : Option UTest := none
  captureStack : Bool := false
  captureOutput : Bool := false
  currentIndent : Int := 0
  failedTests : List UTest := []
  files : List Str := []
deriving DecidableEq, Repr

/-- The `<message>` branch (lines 113–143).  `rest` is the lookahead — the
lines after the current one; the outer loop index is NOT advanced by the
inner collection, so those lines are scanned again afterwards. -/
def messageUpd (line trimmed : Str) (rest : List Str) (t : UTest) : UTest :=
  if jsIncludes trimmed "<message>".data then
    match jsIndexOf line "<![CDATA[".data with
    | some cd =>
      let after := line.drop (cd + 9)
      if jsIncludes after "]]>".data then
        { t with message := jsTrim (takeBefore after "]]>".data) }
      else
        let c0 : List Str := if (jsTrim after).isEmpty then [] else [jsTrim after]
        let mid := rest.takeWhile (fun l => !jsIncludes l "]]>".data)
        let restAfter := rest.dropWhile (fun l => !jsIncludes l "]]>".data)
        let c1 := c0 ++ mid.map jsTrim
        let c2 :=
          match restAfter with
          | endLine :: _ =>
            let ec := jsTrim (takeBefore endLine "]]>".data)
            if ec.isEmpty then c1 else c1 ++ [ec]
          | [] => c1
        { t with message := joinNL c2 }
    | none => t
  else t

/-- The `<stack-trace>` opener branch (lines 146–162). -/
def stackOpenUpd (line trimmed : Str) (t : UTest) (cs : Bool) : UTest × Bool :=
  if jsIncludes trimmed "<stack-trace>".data then
    match jsIndexOf line "<![CDATA[".data with
    | some cd =>
      let after := line.drop (cd + 9)
      if jsIncludes after "]]>".data then
        ({ t with stackTrace := jsTrim (takeBefore after "]]>".data) }, cs)
      else
        (if (jsTrim after).isEmpty then t
         else { t with stackTrace := jsTrim after ++ ['\n'] }, true)
    | none => (t, true)
  else (t, cs)

/-- The stack-trace capture branch (lines 165–175), which also runs on the
opener line itself. -/
def stackCapUpd (trimmed : Str) (t : UTest) (cs : Bool) : UTest × Bool :=
  if cs then
    if jsIncludes trimmed "]]>".data then
      let ec := jsTrim (takeBefore trimmed "]]>".data)
      (if !ec.isEmpty && !jsIncludes ec "<stack-trace>".data then
        { t with stackTrace := t.stackTrace ++ ec }
      else t, false)
    else
      if !trimmed.isEmpty && !jsIncludes trimmed "<stack-trace>".data &&
          !jsIncludes trimmed "<![CDATA[".data then
        ({ t with stackTrace := t.stackTrace ++ trimmed ++ ['\n'] }, cs)
      else (t, cs)
  else (t, cs)

/-- The `<output>` opener branch (lines 178–193). -/
def outputOpenUpd (line trimmed : Str) (t : UTest) (co : Bool) : UTest × Bool :=
  if jsIncludes trimmed "<output>".data then
    match jsIndexOf line "<![CDATA[".data with
    | some cd =>
      let after := line.drop (cd + 9)
      if jsIncludes after "]]>".data then
        ({ t with output := jsTrim (takeBefore after "]]>".data) }, co)
      else
        (if (jsTrim after).isEmpty then t
         else { t with output := jsTrim after ++ ['\n'] }, true)
    | none => (t, true)
  else (t, co)

/-- The output capture branch (lines 196–206). -/
def outputCapUpd (trimmed : Str) (t : UTest) (co : Bool) : UTest × Bool :=
  if co then
    if jsIncludes trimmed "]]>".data then
      let ec := jsTrim (takeBefore trimmed "]]>".data)
      (if !ec.isEmpty && !jsIncludes ec "<output>".data then
        { t with output := t.output ++ ec }
      else t, false)
    else
      if !trimmed.isEmpty && !jsIncludes trimmed "<output>".data &&
          !jsIncludes trimmed "<![CDATA[".data then
        ({ t with output := t.output ++ trimmed ++ ['\n'] }, co)
      else (t, co)
  else (t, co)

/-- File discovery from the accumulated stack trace (lines 209–214). -/
def filesUpd (t : UTest) (files : List Str) : List Str :=
  if !t.stackTrace.isEmpty then
    match csFileOf t.stackTrace with
    | some f => addSet files f
    | none => files
  else files

/-- The body of one loop iteration while inside a failed test case
(lines 112–227).  Returns the new state and whether the `break` on reaching
`maxErrors` fired. -/
def stepBody (maxE : Nat) (line : Str) (rest : List Str) (st : UState)
    (t : UTest) : UState × Bool :=
  let trimmed := jsTrim line
  let t1 := messageUpd line trimmed rest t
  let r2 := stackOpenUpd line trimmed t1 st.captureStack
  let r3 := stackCapUpd trimmed r2.1 r2.2
  let r4 := outputOpenUpd line trimmed r3.1 st.captureOutput
  let r5 := outputCapUpd trimmed r4.1 r4.2
  let t5 := r5.1
  let files' := filesUpd t5 st.files
  if jsIncludes trimmed "</test-case>".data ||
      (isPfx "</".data trimmed && decide (jsSearchNonWs line ≤ st.currentIndent)) then
    if !t5.message.isEmpty || !t5.stackTrace.isEmpty then
      let fts := st.failedTests ++ [t5]
      if decide (maxE ≤ fts.length) then
        ({ st with failedTests := fts, files := files', current := some t5,
                   captureStack := r3.2, captureOutput := r5.2 }, true)
      else
        ({ st with failedTests := fts, files := files', inFailed := false,
                   current := none, captureStack := r3.2, captureOutput := r5.2 },
         false)
    else
      ({ st with files := files', inFailed := false, current := none,
                 captureStack := r3.2, captureOutput := r5.2 }, false)
  else
    ({ st with current := some t5, files := files',
               captureStack := r3.2, captureOutput := r5.2 }, false)

/-- The scan loop of `filterUnityTestResults` (lines 92–228). -/
def scanU (maxE : Nat) : List Str → UState → UState
  | [], st => st
  | line :: rest, st =>
    let trimmed := jsTrim line
    if jsIncludes trimmed "<test-case".data &&
        jsIncludes trimmed "result=\"Failed\"".data then
      scanU maxE rest
        { st with
          inFailed := true,
          currentIndent := jsSearchNonWs line,
          current := some { name := extractTestName trimmed,
                            fullname := extractFullname trimmed,
                            message := [], stackTrace := [], output := [] },
          captureStack := false, captureOutput := false }
    else if st.inFailed then
      match st.current with
      | some t =>
        let r := stepBody maxE line rest st t
        if r.2 then r.1 else scanU maxE rest r.1
      | none => scanU maxE rest st
    else scanU maxE rest st

/-! ### The combined summary pattern (line 77)

`/<test-run[^>]*total="(\d+)"[^>]*passed="(\d+)"[^>]*failed="(\d+)"[^>]*skipped="(\d+)"/`
with full leftmost-first, greedy, backtracking semantics: each `[^>]*` is
tried longest-first, each `\d+` is maximal (followed by `"`), and the start
position advances until the whole chain matches. -/

/-- Try one split length for a `[^>]*key="(\d+)"` segment, then continue. -/
def tryKeyAt (s key : Str) (k : Str → Option (List Nat)) (len : Nat) :
    Option (List Nat) :=
  if (s.take len).all (fun c => c ≠ '>') && isPfx key (s.drop len) then
    let after := s.drop (len + key.length)
    let ds := after.takeWhile Char.isDigit
    if !ds.isEmpty && decide ((after.drop ds.length).head? = some '"') then
      (k (after.drop (ds.length + 1))).map (fun vs => natOfDigits ds :: vs)
    else none
  else none

/-- Greedy `[^>]*`: longest split first. -/
def tryKeyDesc (s key : Str) (k : Str → Option (List Nat)) :
    Nat → Option (List Nat)
  | 0 => tryKeyAt s key k 0
  | l + 1 =>
    match tryKeyAt s key k (l + 1) with
    | some r => some r
    | none => tryKeyDesc s key k l

/-- Match the chain of attribute segments in the fixed order. -/
def attrChain : List Str → Str → Option (List Nat)
  | [], _ => some []
  | key :: keys, s =>
    tryKeyDesc s key (fun rest => attrChain keys rest)
      (s.takeWhile (fun c => c ≠ '>')).length

/-- Leftmost match of the combined summary pattern over the whole input. -/
def combinedSummary : Str → Option (Nat × Nat × Nat × Nat)
  | [] => none
  | s@(_ :: t) =>
    if isPfx "<test-run".data s then
      match attrChain ["total=\"".data, "passed=\"".data, "failed=\"".data,
          "skipped=\"".data] (s.drop 9) with
      | some [a, b, c, d] => some (a, b, c, d)
      | _ => combinedSummary t
    else combinedSummary t

/-- The test-results summary record. -/
structure USummary where
  totalTests : Nat
  passed : Nat
  failed : Nat
  skipped : Nat
deriving DecidableEq, Repr

/-- Structured result of `filterUnityTestResults` (rendering aside). -/
structure UResult where
  summary : USummary
  failedTests : List UTest
  files : List Str
deriving DecidableEq, Repr

/-- The parsed `failed` attribute (`failedTestsCount`, line 81) — parsed but
not used by the returned summary, whose `failed` field is the retained
count (line 283). -/
def parsedFailedCount (text : Str) : Nat :=
  match combinedSummary text with
  | some q => q.2.2.1
  | none => 0

/-- The extraction part of `filterUnityTestResults`
(`src/server.js` lines 61–228 and 279–291). -/
def filterUnityTestResultsCore (text : Str) (maxE : Nat) : UResult :=
  let lines := splitNL text
  let st := scanU maxE lines {}
  let parsed := combinedSummary text
  { summary :=
      { totalTests := (match parsed with | some q => q.1 | none => 0),
        passed := (match parsed with | some q => q.2.1 | none => 0),
        failed := st.failedTests.length,
        skipped := (match parsed with | some q => q.2.2.2 | none => 0) },
    failedTests := st.failedTests,
    files := sortStrs st.files }

/-! ## Test-results extractor of `src/mcp-http-server.js`
(`localFilterUnityTestResults`, lines 145–265) -/

/-- First match of `/<test-run[^>]*>/` (line 155): the first `<test-run`
occurrence, extended to the first following `>`. -/
def mcpTestRunTag : Str → Option Str
  | [] => none
  | s@(_ :: t) =>
    if isPfx "<test-run".data s then
      let after := s.drop 9
      let region := after.takeWhile (fun c => c ≠ '>')
      if decide (region.length < after.length) then
        some ("<test-run".data ++ region ++ ['>'])
      else none
    else mcpTestRunTag t

/-- First match of `key="(\d+)"` (the per-attribute patterns of
lines 160–163); at each position the key must be followed by one or more
digits and a closing quote. -/
def attrDigits : Str → Str → Option Str
  | [], _ => none
  | s@(_ :: tl), key =>
    if isPfx key s then
      let after := s.drop key.length
      let ds := after.takeWhile Char.isDigit
      if !ds.isEmpty && decide ((after.drop ds.length).head? = some '"') then
        some ds
      else attrDigits tl key
    else attrDigits tl key

/-- `parseInt(attrs.match(/key="(\d+)"/)?.[1] || 0)`. -/
def attrNat (attrs key : Str) : Nat :=
  match attrDigits attrs key with
  | some ds => natOfDigits ds
  | none => 0

/-- The summary of `localFilterUnityTestResults`: the `total`, `passed`,
`failed` and `skipped` attributes are each read by an independent match
against the first test-run tag (lines 160–163); its `failed` field is the
parsed declared count (line 257). -/
def localFilterUnitySummary (content : Str) : USummary :=
  match mcpTestRunTag content with
  | some attrs =>
    { totalTests := attrNat attrs "total=\"".data,
      passed := attrNat attrs "passed=\"".data,
      failed := attrNat attrs "failed=\"".data,
      skipped := attrNat attrs "skipped=\"".data }
  | none => { totalTests := 0, passed := 0, failed := 0, skipped := 0 }

/-- One match of
`/<test-case[^>]*result="Failed"[^>]*>([\s\S]*?)<\/test-case>/g` (line 172):
returns the full match text and the remainder after it.  At a candidate
`<test-case` start, `result="Failed"` must occur before the next `>`; the
lazy group then runs to the first `</test-case>`. -/
def mcpNextCase : Str → Option (Str × Str)
  | [] => none
  | s@(_ :: tl) =>
    if isPfx "<test-case".data s then
      let after := s.drop 10
      let region := after.takeWhile (fun c => c ≠ '>')
      if jsIncludes region "result=\"Failed\"".data then
        if decide (region.length < after.length) then
          let tail := after.drop (region.length + 1)
          match jsIndexOf tail "</test-case>".data with
          | some j =>
            some ("<test-case".data ++ region ++ '>' :: tail.take j ++
                "</test-case>".data,
              tail.drop (j + 12))
          | none => none
        else none
      else mcpNextCase tl
    else mcpNextCase tl

/-- First CDATA block `open…close` (the `<message>/<stack-trace>/<output>`
patterns of lines 188–204): first opener occurrence, lazy payload up to the
first closer after it (no match at all if no closer follows the first
opener, since no closer can follow a later one either). -/
def tagCData (s op cl : Str) : Option Str :=
  match jsIndexOf s op with
  | some i =>
    let after := (s.drop i).drop op.length
    match jsIndexOf after cl with
    | some j => some (after.take j)
    | none => none
  | none => none

/-- A failed-test record of `localFilterUnityTestResults`. -/
structure McpTest where
  name : Str
  fullname : Option Str
  message : Str
  stackTrace : Str
  output : Str
deriving DecidableEq, Repr

/-- Parse one matched test-case text (lines 176–207). -/
def mcpParseTest (m : Str) : McpTest :=
  { name := (match attrVal m "name=\"".data with
      | some v => v
      | none => "Unknown".data),
    fullname := attrVal m "fullname=\"".data,
    message := (match tagCData m "<message><![CDATA[".data "]]></message>".data with
      | some c => jsTrim c
      | none => []),
    stackTrace := (match tagCData m "<stack-trace><![CDATA[".data
        "]]></stack-trace>".data with
      | some c => jsTrim c
      | none => []),
    output := (match tagCData m "<output><![CDATA[".data "]]></output>".data with
      | some c => jsTrim c
      | none => []) }

/-- The `exec` loop (lines 175–209), fuelled by the input length: each
match consumes at least one character of the remaining text, so
`length + 1` fuel always suffices. -/
def mcpCollect : Nat → Str → Nat → List McpTest
  | 0, _, _ => []
  | fuel + 1, s, cap =>
    if cap = 0 then []
    else
      match mcpNextCase s with
      | some (m, rest) => mcpParseTest m :: mcpCollect fuel rest (cap - 1)
      | none => []

/-- The failed-test list of `localFilterUnityTestResults`: every matched
failed test-case is retained, with no check that it carries any diagnostic
content. -/
def localFilterUnityFailedTests (content : Str) (maxErrors : Nat) :
    List McpTest :=
  mcpCollect (content.length + 1) content maxErrors

/-! ## Report renderers (`src/server.js` lines 230–277 and 413–455)

Both renderers embed `new Date().toISOString()` in a `# Generated:` line;
the clock reading is made an explicit `now` argument here.  Each render is
factored as header ++ generated-line ++ tail, mirroring the push order. -/

/-- One error block of the full build-log report (lines 428–439). -/
def renderErrBlock (err : BLRec) : List Str :=
  (match err.context with
   | some ctx =>
     if !ctx.isEmpty then
       ("### Error at line ".data ++ natStr err.line) :: "```".data ::
         (ctx ++ [err.message, "```".data])
     else ["[Line ".data ++ natStr err.line ++ "] ".data ++ err.message]
   | none => ["[Line ".data ++ natStr err.line ++ "] ".data ++ err.message]) ++
  [[]]

/-- Lines pushed before the `# Generated:` line (414–420). -/
def renderBLHead (res : BLResult) (fileFilter : Option Str) : List Str :=
  ["# Build Log Filtered Output".data,
   "# Original: ".data ++ natStr res.summary.totalLines ++ " lines".data,
   "# Found: ".data ++ natStr res.summary.errorCount ++ " errors, ".data ++
     natStr res.summary.warningCount ++ " warnings".data] ++
  (match fileFilter with
   | some f => if f.isEmpty then [] else ["# Filter: ".data ++ f]
   | none => [])

/-- Lines pushed after the `# Generated:` line (422–451). -/
def renderBLTail (res : BLResult) : List Str :=
  [] ::
  ((if !res.errors.isEmpty then
      ("## ERRORS (".data ++ natStr res.errors.length ++ ")".data) :: [] ::
        (res.errors.map renderErrBlock).flatten
    else ["## No errors found!".data]) ++
   (if !res.warnings.isEmpty then
      [] :: ("## WARNINGS (".data ++ natStr res.warnings.length ++ ")".data) ::
        [] :: res.warnings.map
          (fun w => "[Line ".data ++ natStr w.line ++ "] ".data ++ w.message)
    else []))

/-- The full-format build-log report as its list of output lines. -/
def renderBuildLogLines (res : BLResult) (fileFilter : Option Str) (now : Str) :
    List Str :=
  renderBLHead res fileFilter ++ ("# Generated: ".data ++ now) :: renderBLTail res

/-- `results.filteredContent` (line 454). -/
def renderBuildLogText (res : BLResult) (fileFilter : Option Str) (now : Str) :
    Str :=
  joinNL (renderBuildLogLines res fileFilter now)

/-- One failed-test block of the unity report (lines 241–274). -/
def renderUTestBlock (showStackTraces showOutput : Bool) (p : Nat × UTest) :
    List Str :=
  let test := p.2
  ("### ".data ++ natStr (p.1 + 1) ++ ". ".data ++
    (match test.name with | some n => n | none => "Unknown Test".data)) ::
  ((match test.fullname with
    | some fn =>
      if test.name = some fn then []
      else ["**Full Name:** `".data ++ fn ++ "`".data]
    | none => []) ++
   [[]] ++
   (if !test.message.isEmpty then
     ["**Error Message:**".data, "```".data, test.message, "```".data, []]
    else []) ++
   (if showStackTraces && !test.stackTrace.isEmpty then
     ["**Stack Trace:**".data, "```".data, jsTrim test.stackTrace, "```".data, []]
    else []) ++
   (if showOutput && !test.output.isEmpty then
     ["**Console Output:**".data, "```".data, jsTrim test.output, "```".data, []]
    else []) ++
   ["---".data, []])

/-- Unity report lines before `# Generated:` (232–233). -/
def renderUHead (res : UResult) : List Str :=
  ["# Unity Test Results - Filtered Output".data,
   "# Total: ".data ++ natStr res.summary.totalTests ++ " | Passed: ".data ++
     natStr res.summary.passed ++ " | Failed: ".data ++
     natStr res.failedTests.length ++ " | Skipped: ".data ++
     natStr res.summary.skipped]

/-- Unity report lines after `# Generated:` (235–277). -/
def renderUTail (res : UResult) (showStackTraces showOutput : Bool) : List Str :=
  [] ::
  (if !res.failedTests.isEmpty then
    ("## FAILED TESTS (".data ++ natStr res.failedTests.length ++ ")".data) ::
      [] :: (res.failedTests.enum.map (renderUTestBlock showStackTraces showOutput)).flatten
   else ["## All tests passed! No failures found.".data])

/-- The unity report as its list of output lines. -/
def renderUnityLines (res : UResult) (showStackTraces showOutput : Bool)
    (now : Str) : List Str :=
  renderUHead res ++ ("# Generated: ".data ++ now) ::
    renderUTail res showStackTraces showOutput

/-- The unity `filteredContent` (line 288). -/
def renderUnityText (res : UResult) (showStackTraces showOutput : Bool)
    (now : Str) : Str :=
  joinNL (renderUnityLines res showStackTraces showOutput now)

/-- A line that triggers none of the scanner's marker branches: while a
failed case is open with no capture active and an empty stack trace, such a
line leaves the scan state unchanged. -/
def InertLine (l : Str) : Prop :=
  jsIncludes (jsTrim l) "<test-case".data = false ∧
  jsIncludes (jsTrim l) "<message>".data = false ∧
  jsIncludes (jsTrim l) "<stack-trace>".data = false ∧
  jsIncludes (jsTrim l) "<output>".data = false ∧
  jsIncludes (jsTrim l) "</test-case>".data = false ∧
  isPfx "</".data (jsTrim l) = false

instance (l : Str) : Decidable (InertLine l) := by
  unfold InertLine
  infer_instance

/-! ## Whitespace-trimming lemmas

The detectors check their markers on (differently) trimmed copies of the
input.  All markers are non-empty strings of non-whitespace characters,
for which prefix and substring tests are invariant under trimming. -/

theorem isPfx_append_ws (n : Str) (u w : Str)
    (hn : ∀ c ∈ n, wsJS c = false) (hw : ∀ c ∈ w, wsJS c = true) :
    isPfx n (u ++ w) = isPfx n u := by
  induction u generalizing n with
  | nil =>
    cases n with
    | nil => rfl
    | cons a n' =>
      simp only [List.nil_append]
      cases w with
      | nil => rfl
      | cons d w' =>
        have ha : wsJS a = false := hn a (List.mem_cons_self _ _)
        have hd : wsJS d = true := hw d (List.mem_cons_self _ _)
        have hne : a ≠ d := fun h => by rw [h, hd] at ha; exact Bool.noConfusion ha
        simp [isPfx, hne]
  | cons b u' ih =>
    cases n with
    | nil => rfl
    | cons a n' =>
      simp only [List.cons_append, isPfx, List.append_eq]
      rw [ih n' (fun c hc => hn c (List.mem_cons_of_mem _ hc))]

theorem jsIncludes_ws_only (w n : Str)
    (hn : ∀ c ∈ n, wsJS c = false) (hne : n ≠ [])
    (hw : ∀ c ∈ w, wsJS c = true) : jsIncludes w n = false := by
  induction w with
  | nil => cases n with
    | nil => exact absurd rfl hne
    | cons a n' => simp [jsIncludes]
  | cons d w' ih =>
    cases n with
    | nil => exact absurd rfl hne
    | cons a n' =>
      have ha : wsJS a = false := hn a (List.mem_cons_self _ _)
      have hd : wsJS d = true := hw d (List.mem_cons_self _ _)
      have hne' : a ≠ d := fun h => by rw [h, hd] at ha; exact Bool.noConfusion ha
      simp only [jsIncludes, isPfx, Bool.or_eq_false_iff]
      constructor
      · simp [hne']
      · exact ih (fun c hc => hw c (List.mem_cons_of_mem _ hc))

theorem jsIncludes_append_ws (n u w : Str)
    (hn : ∀ c ∈ n, wsJS c = false) (hne : n ≠ [])
    (hw : ∀ c ∈ w, wsJS c = true) :
    jsIncludes (u ++ w) n = jsIncludes u n := by
  induction u with
  | nil =>
    simp only [List.nil_append]
    rw [jsIncludes_ws_only w n hn hne hw]
    cases n with
    | nil => exact absurd rfl hne
    | cons a n' => simp [jsIncludes]
  | cons c u' ih =>
    simp only [List.cons_append, jsIncludes, List.append_eq]
    rw [← List.cons_append, isPfx_append_ws n (c :: u') w hn hw, ih]

/-- The input decomposes as its `trimEnd` followed by trailing whitespace. -/
theorem trimEnd_decomp (s : Str) :
    ∃ w, s = jsTrimEnd s ++ w ∧ ∀ c ∈ w, wsJS c = true := by
  refine ⟨(s.reverse.takeWhile wsJS).reverse, ?_, ?_⟩
  · conv_lhs => rw [← List.reverse_reverse s,
      ← List.takeWhile_append_dropWhile (p := wsJS) (l := s.reverse)]
    rw [List.reverse_append]
    rfl
  · intro c hc
    rw [List.mem_reverse] at hc
    exact List.mem_takeWhile_imp hc

theorem isPfx_trimEnd (n s : Str) (hn : ∀ c ∈ n, wsJS c = false) :
    isPfx n (jsTrimEnd s) = isPfx n s := by
  obtain ⟨w, hs, hw⟩ := trimEnd_decomp s
  conv_rhs => rw [hs]
  rw [isPfx_append_ws n _ w hn hw]

theorem jsIncludes_trimEnd (n s : Str)
    (hn : ∀ c ∈ n, wsJS c = false) (hne : n ≠ []) :
    jsIncludes (jsTrimEnd s) n = jsIncludes s n := by
  obtain ⟨w, hs, hw⟩ := trimEnd_decomp s
  conv_rhs => rw [hs]
  rw [jsIncludes_append_ws n _ w hn hne hw]

theorem jsIncludes_trimStart (n s : Str)
    (hn : ∀ c ∈ n, wsJS c = false) (hne : n ≠ []) :
    jsIncludes (jsTrimStart s) n = jsIncludes s n := by
  induction s with
  | nil => rfl
  | cons c t ih =>
    by_cases hc : wsJS c = true
    · have : jsTrimStart (c :: t) = jsTrimStart t := by
        simp [jsTrimStart, List.dropWhile, hc]
      rw [this, ih]
      cases n with
      | nil => exact absurd rfl hne
      | cons a n' =>
        have ha : wsJS a = false := hn a (List.mem_cons_self _ _)
        have hne' : a ≠ c := fun h => by rw [h, hc] at ha; exact nomatch ha
        simp [jsIncludes, isPfx, hne']
    · have : jsTrimStart (c :: t) = c :: t := by
        simp [jsTrimStart, List.dropWhile, Bool.of_not_eq_true hc]
      rw [this]

/-! ## Claim C2: content-kind detection -/

/-- Claim C2 (amended).  The combined-server detector (`src/unnamed/part_001`)
classifies exactly as the claim states: TestResults iff the text, after
trimming leading whitespace, begins with `<?xml`, contains `<test-run`, and
contains `testcasecount` or `<test-case`.  The GUI-server detector
(`src/server.js`) implements only the `testcasecount` conjunct and the MCP
detector (`src/mcp-http-server.js`) only the `<test-case` conjunct.  All
three are total functions, so none ever throws. -/
theorem claim2_detector_refinement (s : Str) :
    combinedIsUnityTestXml s = specDetectTestResults s ∧
    isUnityTestXml s = specDetectOnlyCaseCount s ∧
    localIsUnityTestXml s = specDetectOnlyTestCase s := by
  have hxml : isPfx "<?xml".data (jsTrim s) = isPfx "<?xml".data (jsTrimStart s) :=
    isPfx_trimEnd _ _ (by decide)
  have hrun : jsIncludes (jsTrim s) "<test-run".data
      = jsIncludes (jsTrimStart s) "<test-run".data :=
    jsIncludes_trimEnd _ _ (by decide) (by decide)
  have hcc : jsIncludes (jsTrim s) "testcasecount".data
      = jsIncludes (jsTrimStart s) "testcasecount".data :=
    jsIncludes_trimEnd _ _ (by decide) (by decide)
  have htc : jsIncludes (jsTrim s) "<test-case".data
      = jsIncludes (jsTrimStart s) "<test-case".data :=
    jsIncludes_trimEnd _ _ (by decide) (by decide)
  have hrun' : jsIncludes s "<test-run".data
      = jsIncludes (jsTrimStart s) "<test-run".data :=
    (jsIncludes_trimStart _ _ (by decide) (by decide)).symm
  have htc' : jsIncludes s "<test-case".data
      = jsIncludes (jsTrimStart s) "<test-case".data :=
    (jsIncludes_trimStart _ _ (by decide) (by decide)).symm
  refine ⟨?_, ?_, ?_⟩
  · simp only [combinedIsUnityTestXml, specDetectTestResults]
    rw [hxml, hrun, hcc, htc]
  · simp only [isUnityTestXml, specDetectOnlyCaseCount]
    rw [hxml, hrun, hcc]
  · simp only [localIsUnityTestXml, specDetectOnlyTestCase]
    rw [hxml, hrun', htc']

/-- Claim C2 counterexample.  The first document satisfies the claimed
TestResults condition (it has a `<test-case` marker) but the GUI-server
detector classifies it as a build log; the second satisfies the claimed
condition via `testcasecount` but the MCP detector classifies it as a
build log.  So the claimed iff does not hold for every detector. -/
theorem claim2_counterexample :
    specDetectTestResults ("<?xml version=\"1.0\"?><test-run><test-case name=\"t\" result=\"Failed\" /></test-run>").data = true ∧
    isUnityTestXml ("<?xml version=\"1.0\"?><test-run><test-case name=\"t\" result=\"Failed\" /></test-run>").data = false ∧
    specDetectTestResults ("<?xml version=\"1.0\"?><test-run testcasecount=\"0\"></test-run>").data = true ∧
    localIsUnityTestXml ("<?xml version=\"1.0\"?><test-run testcasecount=\"0\"></test-run>").data = false := by
  decide

/-! ## Generic fold-invariant helper -/

theorem foldl_inv {α β : Type _} (step : α → β → α) (Inv : α → Prop) :
    ∀ L : List β, (∀ st p, p ∈ L → Inv st → Inv (step st p)) →
      ∀ st, Inv st → Inv (L.foldl step st) := by
  intro L
  induction L with
  | nil => intro _ st h; exact h
  | cons hd tl ih =>
    intro hstep st h
    exact ih (fun st p hp hi => hstep st p (List.mem_cons_of_mem _ hp) hi) _
      (hstep st hd (List.mem_cons_self _ _) h)

/-! ## Characterisation of one `filterBuildLog` scan step -/

theorem stepBL_errors_spec (o : BLOpts) (A : List Str) (st : BLState)
    (p : Nat × Str) :
    (stepBL o A st p).errors = st.errors ∨
    (isErrServer p.2 = true ∧ st.errorCount < o.maxErrors ∧
      matchesFileB (activeFilters o) p.2 = true ∧
      (stepBL o A st p).errors = st.errors ++
        [{ line := p.1 + 1, message := jsTrim p.2, context := ctxOf o A p.1 }]) := by
  by_cases hE : (isErrServer p.2 && decide (st.errorCount < o.maxErrors) &&
      matchesFileB (activeFilters o) p.2) = true
  · have hE' := hE
    simp only [Bool.and_eq_true, decide_eq_true_eq] at hE'
    refine Or.inr ⟨hE'.1.1, hE'.1.2, hE'.2, ?_⟩
    simp only [stepBL, hE, if_true]
    split <;> rfl
  · have hE2 := Bool.eq_false_iff.mpr hE
    refine Or.inl ?_
    simp only [stepBL, hE2, Bool.false_eq_true, if_false]
    split <;> rfl

theorem stepBL_warnings_spec (o : BLOpts) (A : List Str) (st : BLState)
    (p : Nat × Str) :
    (stepBL o A st p).warnings = st.warnings ∨
    (isErrServer p.2 = false ∧ isWarnPat p.2 = true ∧ o.showWarnings = true ∧
      st.warningCount < o.maxWarnings ∧
      matchesFileB (activeFilters o) p.2 = true ∧
      (stepBL o A st p).warnings = st.warnings ++
        [{ line := p.1 + 1, message := jsTrim p.2 }]) := by
  by_cases hE : (isErrServer p.2 && decide (st.errorCount < o.maxErrors) &&
      matchesFileB (activeFilters o) p.2) = true
  · have hE' := hE
    simp only [Bool.and_eq_true, decide_eq_true_eq] at hE'
    have herr : isErrServer p.2 = true := hE'.1.1
    refine Or.inl ?_
    simp only [stepBL, herr, Bool.not_true, Bool.false_and,
      Bool.and_false, Bool.false_eq_true, if_false]
    split <;> rfl
  · have hE2 := Bool.eq_false_iff.mpr hE
    by_cases hW : (!isErrServer p.2 && isWarnPat p.2 && o.showWarnings &&
        decide (st.warningCount < o.maxWarnings) &&
        matchesFileB (activeFilters o) p.2) = true
    · have hW' := hW
      simp only [Bool.and_eq_true, Bool.not_eq_true', decide_eq_true_eq] at hW'
      refine Or.inr ⟨hW'.1.1.1.1, hW'.1.1.1.2, hW'.1.1.2, hW'.1.2, hW'.2, ?_⟩
      simp only [stepBL, hE2, Bool.false_eq_true, if_false, hW, if_true]
    · have hW2 := Bool.eq_false_iff.mpr hW
      refine Or.inl ?_
      simp only [stepBL, hE2, Bool.false_eq_true, if_false, hW2]

theorem stepBL_counts_inv (o : BLOpts) (A : List Str) (st : BLState)
    (p : Nat × Str) (h : BLCountsInv o st) : BLCountsInv o (stepBL o A st p) := by
  obtain ⟨h1, h2, h3, h4, h5, h6⟩ := h
  by_cases hE : (isErrServer p.2 && decide (st.errorCount < o.maxErrors) &&
      matchesFileB (activeFilters o) p.2) = true
  · have hE' := hE
    simp only [Bool.and_eq_true, decide_eq_true_eq] at hE'
    have herr : isErrServer p.2 = true := hE'.1.1
    have hlt : st.errorCount < o.maxErrors := hE'.1.2
    simp only [stepBL, herr, Bool.not_true, Bool.false_and, Bool.and_false,
      Bool.false_eq_true, if_false]
    split
    · refine ⟨?_, rfl, h3, h4, ?_, h6⟩
      · simp [List.length_append, h1]
      · simp only [List.length_append, List.length_cons, List.length_nil]
        omega
    · exact ⟨h1, h2, h3, h4, h5, h6⟩
  · have hE2 := Bool.eq_false_iff.mpr hE
    simp only [stepBL, hE2, Bool.false_eq_true, if_false]
    split
    next hW =>
      simp only [Bool.and_eq_true, decide_eq_true_eq] at hW
      have hlt : st.warningCount < o.maxWarnings := hW.1.2
      refine ⟨h1, h2, ?_, rfl, h5, ?_⟩
      · simp [List.length_append, h3]
      · simp only [List.length_append, List.length_cons, List.length_nil]
        omega
    next _ => exact ⟨h1, h2, h3, h4, h5, h6⟩

/-- Lockstep counters and caps for the whole `filterBuildLog` scan. -/
theorem filterBuildLogCore_counts (text : Str) (o : BLOpts) :
    (filterBuildLogCore text o).summary.errorCount =
      (filterBuildLogCore text o).errors.length ∧
    (filterBuildLogCore text o).summary.warningCount =
      (filterBuildLogCore text o).warnings.length ∧
    (filterBuildLogCore text o).errors.length ≤ o.maxErrors ∧
    (filterBuildLogCore text o).warnings.length ≤ o.maxWarnings := by
  have h := foldl_inv (stepBL o (splitNL text)) (BLCountsInv o)
    (splitNL text).enum
    (fun st p _ hi => stepBL_counts_inv o (splitNL text) st p hi)
    {} ⟨rfl, rfl, rfl, rfl, Nat.zero_le _, Nat.zero_le _⟩
  obtain ⟨h1, h2, h3, h4, h5, h6⟩ := h
  simp only [filterBuildLogCore]
  exact ⟨by rw [h2, h1], by rw [h4, h3], h5, h6⟩

/-- Claim C10.  In the full-format build-log extractor the declared summary
counts always equal the retained list lengths: `summary.errorCount =
errors.length` and `summary.warningCount = warnings.length`, for every input
text and options (both are updated under the same guard, lines 386–409). -/
theorem claim10_summary_counts_match_lists (text : Str) (o : BLOpts) :
    (filterBuildLogCore text o).summary.errorCount =
      (filterBuildLogCore text o).errors.length ∧
    (filterBuildLogCore text o).summary.warningCount =
      (filterBuildLogCore text o).warnings.length :=
  ⟨(filterBuildLogCore_counts text o).1, (filterBuildLogCore_counts text o).2.1⟩

/-- Indices determine entries in `List.enum`. -/
theorem enum_snd_eq {α : Type _} {L : List α} {p q : Nat × α}
    (hp : p ∈ L.enum) (hq : q ∈ L.enum) (h : p.1 = q.1) : p.2 = q.2 := by
  rw [List.mem_enum_iff_getElem?] at hp hq
  rw [h] at hp
  rw [hp] at hq
  exact Option.some.inj hq

theorem stepBL_class_inv (o : BLOpts) (A : List Str) (E : List (Nat × Str))
    (st : BLState) (p : Nat × Str) (hp : p ∈ E) (h : BLClassInv E st) :
    BLClassInv E (stepBL o A st p) := by
  obtain ⟨h1, h2⟩ := h
  constructor
  · intro e he
    rcases stepBL_errors_spec o A st p with hsame | ⟨herr, _, _, happ⟩
    · rw [hsame] at he; exact h1 e he
    · rw [happ] at he
      rcases List.mem_append.mp he with hin | hnew
      · exact h1 e hin
      · rw [List.mem_singleton] at hnew
        subst hnew
        exact ⟨p, hp, rfl, herr⟩
  · intro w hw
    rcases stepBL_warnings_spec o A st p with hsame | ⟨herr, _, _, _, _, happ⟩
    · rw [hsame] at hw; exact h2 w hw
    · rw [happ] at hw
      rcases List.mem_append.mp hw with hin | hnew
      · exact h2 w hin
      · rw [List.mem_singleton] at hnew
        subst hnew
        exact ⟨p, hp, rfl, herr⟩

/-- `formatMinimal`'s second pass: analogous step characterisations. -/
theorem stepFM_errors_spec (o : BLOpts) (st : FMState) (p : Nat × Str) :
    (stepFM o st p).errors = st.errors ∨
    (isErrMinimal p.2 = true ∧ matchesFileB (activeFilters o) p.2 = true ∧
      (stepFM o st p).errors = st.errors ++
        [{ line := p.1 + 1, message := jsTrim p.2 }]) := by
  by_cases hE : (isErrMinimal p.2 && decide (st.errors.length < o.maxErrors) &&
      matchesFileB (activeFilters o) p.2) = true
  · have hE' := hE
    simp only [Bool.and_eq_true, decide_eq_true_eq] at hE'
    refine Or.inr ⟨hE'.1.1, hE'.2, ?_⟩
    simp only [stepFM, hE, if_true]
  · have hE2 := Bool.eq_false_iff.mpr hE
    refine Or.inl ?_
    simp only [stepFM, hE2, Bool.false_eq_true, if_false]
    split <;> rfl

theorem stepFM_warnings_spec (o : BLOpts) (st : FMState) (p : Nat × Str) :
    (stepFM o st p).warnings = st.warnings ∨
    (isErrMinimal p.2 = false ∧ isWarnPat p.2 = true ∧
      matchesFileB (activeFilters o) p.2 = true ∧
      (stepFM o st p).warnings = st.warnings ++
        [{ line := p.1 + 1, message := jsTrim p.2 }]) := by
  by_cases hE : (isErrMinimal p.2 && decide (st.errors.length < o.maxErrors) &&
      matchesFileB (activeFilters o) p.2) = true
  · refine Or.inl ?_
    simp only [stepFM, hE, if_true]
  · have hE2 := Bool.eq_false_iff.mpr hE
    by_cases hW : (!isErrMinimal p.2 && isWarnPat p.2 && o.showWarnings &&
        decide (st.warnings.length < o.maxWarnings) &&
        matchesFileB (activeFilters o) p.2) = true
    · have hW' := hW
      simp only [Bool.and_eq_true, Bool.not_eq_true', decide_eq_true_eq] at hW'
      refine Or.inr ⟨hW'.1.1.1.1, hW'.1.1.1.2, hW'.2, ?_⟩
      simp only [stepFM, hE2, Bool.false_eq_true, if_false, hW, if_true]
    · have hW2 := Bool.eq_false_iff.mpr hW
      refine Or.inl ?_
      simp only [stepFM, hE2, Bool.false_eq_true, if_false, hW2]

theorem matchesFileB_of_ne (filters : List Str) (line : Str)
    (h : filters ≠ []) : matchesFileB filters line = fileOkB filters line := by
  have : filters.isEmpty = false := by
    cases filters with
    | nil => exact absurd rfl h
    | cons a t => rfl
  simp only [matchesFileB, fileOkB, this, Bool.false_eq_true, if_false]

theorem stepBL_file_inv (o : BLOpts) (A : List Str) (E : List (Nat × Str))
    (st : BLState) (p : Nat × Str) (hp : p ∈ E)
    (hne : activeFilters o ≠ [])
    (h : BLFileInv (activeFilters o) E st) :
    BLFileInv (activeFilters o) E (stepBL o A st p) := by
  obtain ⟨h1, h2⟩ := h
  constructor
  · intro e he
    rcases stepBL_errors_spec o A st p with hsame | ⟨_, _, hmf, happ⟩
    · rw [hsame] at he; exact h1 e he
    · rw [happ] at he
      rcases List.mem_append.mp he with hin | hnew
      · exact h1 e hin
      · rw [List.mem_singleton] at hnew
        subst hnew
        refine ⟨p, hp, rfl, ?_⟩
        rw [← matchesFileB_of_ne _ _ hne]
        exact hmf
  · intro w hw
    rcases stepBL_warnings_spec o A st p with hsame | ⟨_, _, _, _, hmf, happ⟩
    · rw [hsame] at hw; exact h2 w hw
    · rw [happ] at hw
      rcases List.mem_append.mp hw with hin | hnew
      · exact h2 w hin
      · rw [List.mem_singleton] at hnew
        subst hnew
        refine ⟨p, hp, rfl, ?_⟩
        rw [← matchesFileB_of_ne _ _ hne]
        exact hmf

theorem stepFM_file_inv (o : BLOpts) (E : List (Nat × Str))
    (st : FMState) (p : Nat × Str) (hp : p ∈ E)
    (hne : activeFilters o ≠ [])
    (h : FMFileInv (activeFilters o) E st) :
    FMFileInv (activeFilters o) E (stepFM o st p) := by
  obtain ⟨h1, h2⟩ := h
  constructor
  · intro e he
    rcases stepFM_errors_spec o st p with hsame | ⟨_, hmf, happ⟩
    · rw [hsame] at he; exact h1 e he
    · rw [happ] at he
      rcases List.mem_append.mp he with hin | hnew
      · exact h1 e hin
      · rw [List.mem_singleton] at hnew
        subst hnew
        refine ⟨p, hp, rfl, ?_⟩
        rw [← matchesFileB_of_ne _ _ hne]
        exact hmf
  · intro w hw
    rcases stepFM_warnings_spec o st p with hsame | ⟨_, _, hmf, happ⟩
    · rw [hsame] at hw; exact h2 w hw
    · rw [happ] at hw
      rcases List.mem_append.mp hw with hin | hnew
      · exact h2 w hin
      · rw [List.mem_singleton] at hnew
        subst hnew
        refine ⟨p, hp, rfl, ?_⟩
        rw [← matchesFileB_of_ne _ _ hne]
        exact hmf

theorem activeFilters_of_fileFilters_ne (o : BLOpts) (h : o.fileFilters ≠ []) :
    activeFilters o = o.fileFilters := by
  have : o.fileFilters.isEmpty = false := by
    cases hf : o.fileFilters with
    | nil => exact absurd hf h
    | cons a t => rfl
  simp only [activeFilters, this, Bool.false_eq_true, if_false]

/-- Claim C8 (confirmed).  With a non-empty `fileFilters` set, every retained
error and warning — in `filterBuildLog` and in `formatMinimal` — originates
from an input line whose extracted file name contains or is contained in at
least one filter entry; lines without an extractable file name are never
retained while filtering is active. -/
theorem claim8_file_filter_containment (text : Str) (o : BLOpts)
    (h : o.fileFilters ≠ []) :
    (∀ e ∈ (filterBuildLogCore text o).errors,
      ∃ p ∈ (splitNL text).enum, e.line = p.1 + 1 ∧ fileOkB o.fileFilters p.2 = true) ∧
    (∀ w ∈ (filterBuildLogCore text o).warnings,
      ∃ p ∈ (splitNL text).enum, w.line = p.1 + 1 ∧ fileOkB o.fileFilters p.2 = true) ∧
    (∀ e ∈ (formatMinimalCore text o).errors,
      ∃ p ∈ (splitNL text).enum, e.line = p.1 + 1 ∧ fileOkB o.fileFilters p.2 = true) ∧
    (∀ w ∈ (formatMinimalCore text o).warnings,
      ∃ p ∈ (splitNL text).enum, w.line = p.1 + 1 ∧ fileOkB o.fileFilters p.2 = true) := by
  have hact : activeFilters o = o.fileFilters := activeFilters_of_fileFilters_ne o h
  have hne : activeFilters o ≠ [] := by rw [hact]; exact h
  have hbl := foldl_inv (stepBL o (splitNL text)) (BLFileInv (activeFilters o) (splitNL text).enum)
    (splitNL text).enum
    (fun st p hp hi => stepBL_file_inv o (splitNL text) _ st p hp hne hi)
    {} ⟨fun e he => absurd he (List.not_mem_nil e), fun w hw => absurd hw (List.not_mem_nil w)⟩
  have hfm := foldl_inv (stepFM o) (FMFileInv (activeFilters o) (splitNL text).enum)
    (splitNL text).enum
    (fun st p hp hi => stepFM_file_inv o _ st p hp hne hi)
    {} ⟨fun e he => absurd he (List.not_mem_nil e), fun w hw => absurd hw (List.not_mem_nil w)⟩
  rw [hact] at hbl hfm
  exact ⟨hbl.1, hbl.2, hfm.1, hfm.2⟩

theorem stepFM_class_inv (o : BLOpts) (E : List (Nat × Str))
    (st : FMState) (p : Nat × Str) (hp : p ∈ E) (h : FMClassInv E st) :
    FMClassInv E (stepFM o st p) := by
  obtain ⟨h1, h2⟩ := h
  constructor
  · intro e he
    rcases stepFM_errors_spec o st p with hsame | ⟨herr, _, happ⟩
    · rw [hsame] at he; exact h1 e he
    · rw [happ] at he
      rcases List.mem_append.mp he with hin | hnew
      · exact h1 e hin
      · rw [List.mem_singleton] at hnew
        subst hnew
        exact ⟨p, hp, rfl, herr⟩
  · intro w hw
    rcases stepFM_warnings_spec o st p with hsame | ⟨herr, _, _, happ⟩
    · rw [hsame] at hw; exact h2 w hw
    · rw [happ] at hw
      rcases List.mem_append.mp hw with hin | hnew
      · exact h2 w hin
      · rw [List.mem_singleton] at hnew
        subst hnew
        exact ⟨p, hp, rfl, herr⟩

/-- Claim C4 (amended).  In the GUI server's build-log entry points
(`filterBuildLog` and `formatMinimal`) classification is exclusive: a line
matching an error pattern is never also retained or counted as a warning
(`isWarning` is `!isError && …`), so no line number ever occurs in both
retained lists.  The MCP entry point `localFilterBuildLog` lacks the
`!isError` guard, and a line matching both an error pattern and the warning
pattern is counted as both there (see the counterexample). -/
theorem claim4_exclusive_classification (text : Str) (o : BLOpts) :
    (∀ e ∈ (filterBuildLogCore text o).errors,
      ∀ w ∈ (filterBuildLogCore text o).warnings, e.line ≠ w.line) ∧
    (∀ e ∈ (formatMinimalCore text o).errors,
      ∀ w ∈ (formatMinimalCore text o).warnings, e.line ≠ w.line) := by
  constructor
  · have hinv := foldl_inv (stepBL o (splitNL text))
      (BLClassInv (splitNL text).enum) (splitNL text).enum
      (fun st p hp hi => stepBL_class_inv o (splitNL text) _ st p hp hi)
      {} ⟨fun e he => absurd he (List.not_mem_nil e),
          fun w hw => absurd hw (List.not_mem_nil w)⟩
    intro e he w hw heq
    obtain ⟨p, hp, hpl, hpe⟩ := hinv.1 e he
    obtain ⟨q, hq, hql, hqe⟩ := hinv.2 w hw
    have hidx : p.1 = q.1 := by omega
    have := enum_snd_eq hp hq hidx
    rw [this, hqe] at hpe
    exact Bool.noConfusion hpe
  · have hinv := foldl_inv (stepFM o)
      (FMClassInv (splitNL text).enum) (splitNL text).enum
      (fun st p hp hi => stepFM_class_inv o _ st p hp hi)
      {} ⟨fun e he => absurd he (List.not_mem_nil e),
          fun w hw => absurd hw (List.not_mem_nil w)⟩
    intro e he w hw heq
    obtain ⟨p, hp, hpl, hpe⟩ := hinv.1 e he
    obtain ⟨q, hq, hql, hqe⟩ := hinv.2 w hw
    have hidx : p.1 = q.1 := by omega
    have := enum_snd_eq hp hq hidx
    rw [this, hqe] at hpe
    exact Bool.noConfusion hpe

/-- Claim C4 counterexample.  In `localFilterBuildLog` the single line
`"ERROR: warning C4101: x"` matches both the `/\bERROR:/i` error pattern and
the warning pattern, and (absent the `!isError` guard) it is retained and
counted as an error AND as a warning — refuting the claim for "every
build-log filtering entry point". -/
theorem claim4_counterexample :
    (localFilterBuildLogCore "ERROR: warning C4101: x".data {}).totalLines = 1 ∧
    (localFilterBuildLogCore "ERROR: warning C4101: x".data {}).errorCount = 1 ∧
    (localFilterBuildLogCore "ERROR: warning C4101: x".data {}).warningCount = 1 ∧
    ((localFilterBuildLogCore "ERROR: warning C4101: x".data {}).errors.map
      (fun r => r.line)) = [1] ∧
    ((localFilterBuildLogCore "ERROR: warning C4101: x".data {}).warnings.map
      (fun r => r.line)) = [1] := by
  decide

/-- Witness for claim C4's amended theorem at a concrete input. -/
theorem claim4_witness :
    ({ line := 1, message := "error C1: x".data } : BLRec).line ≠
      ({ line := 2, message := "warning C2: y".data } : BLRec).line :=
  (claim4_exclusive_classification "error C1: x\nwarning C2: y".data {}).1
    { line := 1, message := "error C1: x".data } (by decide)
    { line := 2, message := "warning C2: y".data } (by decide)

/-! ## `localFilterBuildLog`: caps on the lists, unbounded counters -/

theorem stepMcpBLWarn_errorCount (o : McpBLOpts) (st : McpBLState)
    (p : Nat × Str) : (stepMcpBLWarn o st p).errorCount = st.errorCount := by
  simp only [stepMcpBLWarn]
  split
  · split <;> rfl
  · rfl

theorem stepMcpBL_errorCount (o : McpBLOpts) (A : List Str) (st : McpBLState)
    (p : Nat × Str) :
    (stepMcpBL o A st p).errorCount =
      st.errorCount + (if isErrMcp p.2 = true then 1 else 0) := by
  rw [stepMcpBL, stepMcpBLWarn_errorCount]
  by_cases hE : isErrMcp p.2 = true
  · simp only [stepMcpBLErr, hE, if_true, if_pos rfl]
    split <;> rfl
  · have hE2 := Bool.eq_false_iff.mpr hE
    simp only [stepMcpBLErr, hE2, Bool.false_eq_true, if_false, hE]
    rfl

theorem foldMcp_errorCount (o : McpBLOpts) (A : List Str) :
    ∀ (L : List (Nat × Str)) (st : McpBLState),
      (L.foldl (stepMcpBL o A) st).errorCount =
        st.errorCount + L.countP (fun p => isErrMcp p.2) := by
  intro L
  induction L with
  | nil => intro st; simp
  | cons hd tl ih =>
    intro st
    simp only [List.foldl_cons, List.countP_cons]
    rw [ih, stepMcpBL_errorCount]
    by_cases h : isErrMcp hd.2 = true
    · simp [h]
      omega
    · simp [h]

theorem countP_enumFrom {α : Type _} (f : α → Bool) :
    ∀ (L : List α) (n : Nat),
      (List.enumFrom n L).countP (fun p => f p.2) = L.countP f := by
  intro L
  induction L with
  | nil => intro n; rfl
  | cons a t ih =>
    intro n
    simp only [List.enumFrom, List.countP_cons, ih]

/-- In `localFilterBuildLog` the declared error count equals the number of
error-matching lines, regardless of `maxErrors`: counting continues past the
cap. -/
theorem localFilterBuildLog_errorCount (text : Str) (o : McpBLOpts) :
    (localFilterBuildLogCore text o).errorCount =
      (splitNL text).countP isErrMcp := by
  simp only [localFilterBuildLogCore]
  rw [foldMcp_errorCount]
  rw [List.enum, countP_enumFrom]
  simp

theorem stepMcpBLErr_warnings (o : McpBLOpts) (A : List Str) (st : McpBLState)
    (p : Nat × Str) : (stepMcpBLErr o A st p).warnings = st.warnings := by
  simp only [stepMcpBLErr]
  split
  · split <;> rfl
  · rfl

theorem stepMcpBLWarn_errors (o : McpBLOpts) (st : McpBLState)
    (p : Nat × Str) : (stepMcpBLWarn o st p).errors = st.errors := by
  simp only [stepMcpBLWarn]
  split
  · split <;> rfl
  · rfl

theorem stepMcpBLErr_errors_len (o : McpBLOpts) (A : List Str) (st : McpBLState)
    (p : Nat × Str) (h : st.errors.length ≤ o.maxErrors) :
    (stepMcpBLErr o A st p).errors.length ≤ o.maxErrors := by
  simp only [stepMcpBLErr]
  split
  · split
    next hlt =>
      simp only [decide_eq_true_eq] at hlt
      simp only [List.length_append, List.length_cons, List.length_nil]
      omega
    next _ => exact h
  · exact h

theorem stepMcpBLWarn_warnings_len (o : McpBLOpts) (st : McpBLState)
    (p : Nat × Str) (h : st.warnings.length ≤ o.maxWarnings) :
    (stepMcpBLWarn o st p).warnings.length ≤ o.maxWarnings := by
  simp only [stepMcpBLWarn]
  split
  · split
    next hlt =>
      simp only [decide_eq_true_eq] at hlt
      simp only [List.length_append, List.length_cons, List.length_nil]
      omega
    next _ => exact h
  · exact h

theorem stepMcpBL_caps (o : McpBLOpts) (A : List Str) (st : McpBLState)
    (p : Nat × Str)
    (h : st.errors.length ≤ o.maxErrors ∧ st.warnings.length ≤ o.maxWarnings) :
    (stepMcpBL o A st p).errors.length ≤ o.maxErrors ∧
      (stepMcpBL o A st p).warnings.length ≤ o.maxWarnings := by
  obtain ⟨h1, h2⟩ := h
  rw [stepMcpBL]
  constructor
  · rw [stepMcpBLWarn_errors]
    exact stepMcpBLErr_errors_len o A st p h1
  · apply stepMcpBLWarn_warnings_len
    rw [stepMcpBLErr_warnings]
    exact h2

/-- The retained lists of `localFilterBuildLog` respect the caps. -/
theorem localFilterBuildLog_caps (text : Str) (o : McpBLOpts) :
    (localFilterBuildLogCore text o).errors.length ≤ o.maxErrors ∧
    (localFilterBuildLogCore text o).warnings.length ≤ o.maxWarnings := by
  have h := foldl_inv (stepMcpBL o (splitNL text))
    (fun st => st.errors.length ≤ o.maxErrors ∧ st.warnings.length ≤ o.maxWarnings)
    (splitNL text).enum
    (fun st p _ hi => stepMcpBL_caps o (splitNL text) st p hi)
    {} ⟨Nat.zero_le _, Nat.zero_le _⟩
  exact h

theorem stepBL_warnView_eq (o : BLOpts) (A : List Str) (st : BLState)
    (p : Nat × Str) :
    warnView (stepBL o A st p) =
      if (!isErrServer p.2 && isWarnPat p.2 && o.showWarnings &&
          decide (st.warningCount < o.maxWarnings) &&
          matchesFileB (activeFilters o) p.2) = true
      then (st.warningCount + 1, st.warningCount + 1,
            st.warnings ++ [{ line := p.1 + 1, message := jsTrim p.2 }])
      else warnView st := by
  by_cases hE : (isErrServer p.2 && decide (st.errorCount < o.maxErrors) &&
      matchesFileB (activeFilters o) p.2) = true
  · have hE' := hE
    simp only [Bool.and_eq_true, decide_eq_true_eq] at hE'
    have herr : isErrServer p.2 = true := hE'.1.1
    have hfalse : (!isErrServer p.2 && isWarnPat p.2 && o.showWarnings &&
        decide (st.warningCount < o.maxWarnings) &&
        matchesFileB (activeFilters o) p.2) = false := by
      rw [herr]; simp
    rw [hfalse]
    simp only [Bool.false_eq_true, if_false]
    simp only [stepBL, herr, Bool.not_true, Bool.false_and, Bool.and_false,
      Bool.false_eq_true, if_false]
    split <;> rfl
  · have hE2 := Bool.eq_false_iff.mpr hE
    simp only [stepBL, hE2, Bool.false_eq_true, if_false]
    by_cases hW : (!isErrServer p.2 && isWarnPat p.2 && o.showWarnings &&
        decide (st.warningCount < o.maxWarnings) &&
        matchesFileB (activeFilters o) p.2) = true
    · rw [hW]
      simp only [if_true, hW]
      rfl
    · have hW2 := Bool.eq_false_iff.mpr hW
      rw [hW2]
      simp only [Bool.false_eq_true, if_false, hW2]

theorem fold_warnView (o o' : BLOpts) (A : List Str)
    (hs : o.showWarnings = o'.showWarnings)
    (hm : o.maxWarnings = o'.maxWarnings)
    (hf : activeFilters o = activeFilters o') :
    ∀ (L : List (Nat × Str)) (st st' : BLState), warnView st = warnView st' →
      warnView (L.foldl (stepBL o A) st) = warnView (L.foldl (stepBL o' A) st') := by
  intro L
  induction L with
  | nil => intro st st' h; exact h
  | cons hd tl ih =>
    intro st st' h
    simp only [List.foldl_cons]
    apply ih
    have heq := h
    simp only [warnView, Prod.mk.injEq] at h
    rw [stepBL_warnView_eq, stepBL_warnView_eq, hs, hm, hf, h.1, h.2.2, heq]

/-- The retained warnings (and the declared warning count) of
`filterBuildLog` do not depend on `maxErrors`: the scan keeps examining and
retaining warnings after the error cap is full. -/
theorem filterBuildLog_warnings_indep (text : Str) (o : BLOpts) (m : Nat) :
    (filterBuildLogCore text { o with maxErrors := m }).warnings =
      (filterBuildLogCore text o).warnings ∧
    (filterBuildLogCore text { o with maxErrors := m }).summary.warningCount =
      (filterBuildLogCore text o).summary.warningCount := by
  have h := fold_warnView { o with maxErrors := m } o (splitNL text)
    rfl rfl rfl (splitNL text).enum {} {} rfl
  simp only [warnView, Prod.mk.injEq] at h
  exact ⟨h.2.2, h.2.1⟩

/-! ### Join lemmas for the determinism proof -/

theorem joinNL_cons_ne (x : Str) (B : List Str) (hB : B ≠ []) :
    joinNL (x :: B) = x ++ '\n' :: joinNL B := by
  cases B with
  | nil => exact absurd rfl hB
  | cons y r => rfl

theorem joinNL_append (A B : List Str) (hA : A ≠ []) (hB : B ≠ []) :
    joinNL (A ++ B) = joinNL A ++ '\n' :: joinNL B := by
  induction A with
  | nil => exact absurd rfl hA
  | cons x A' ih =>
    cases A' with
    | nil =>
      simp only [List.cons_append, List.nil_append]
      rw [joinNL_cons_ne x B hB]
      rfl
    | cons y r =>
      have h' : (y :: r : List Str) ≠ [] := by simp
      have hmid := ih h'
      simp only [List.cons_append] at hmid ⊢
      have e1 : joinNL (x :: y :: (r ++ B)) = x ++ '\n' :: joinNL (y :: (r ++ B)) := rfl
      have e2 : joinNL (x :: y :: r) = x ++ '\n' :: joinNL (y :: r) := rfl
      rw [e1, e2, hmid]
      simp [List.cons_append, List.append_assoc]

theorem render_inj_core (Hd Tl : List Str) (g : Str) (t1 t2 : Str)
    (hHd : Hd ≠ []) (hTl : Tl ≠ [])
    (h : joinNL (Hd ++ (g ++ t1) :: Tl) = joinNL (Hd ++ (g ++ t2) :: Tl)) :
    t1 = t2 := by
  have e1 : ∀ t : Str, joinNL (Hd ++ (g ++ t) :: Tl) =
      ((joinNL Hd ++ '\n' :: g) ++ t) ++ ('\n' :: joinNL Tl) := by
    intro t
    rw [joinNL_append Hd ((g ++ t) :: Tl) hHd (by simp),
      joinNL_cons_ne _ _ hTl]
    simp [List.append_assoc]
  rw [e1 t1, e1 t2] at h
  have h2 := List.append_cancel_right h
  exact List.append_cancel_left h2

/-! ## Characterisation of the unity scan -/

theorem stepBody_failedTests_spec (maxE : Nat) (l : Str) (rest : List Str)
    (st : UState) (t : UTest) :
    ((stepBody maxE l rest st t).1.failedTests = st.failedTests ∧
      (stepBody maxE l rest st t).2 = false) ∨
    (∃ t5, (stepBody maxE l rest st t).1.failedTests = st.failedTests ++ [t5] ∧
      (t5.message ≠ [] ∨ t5.stackTrace ≠ []) ∧
      ((stepBody maxE l rest st t).2 = true ↔ maxE ≤ st.failedTests.length + 1)) := by
  simp only [stepBody]
  split
  · split
    next hne =>
      simp only [Bool.or_eq_true, Bool.not_eq_true', List.isEmpty_eq_false] at hne
      split
      next hbrk =>
        simp only [decide_eq_true_eq, List.length_append, List.length_cons,
          List.length_nil] at hbrk
        refine Or.inr ⟨_, rfl, hne, ?_⟩
        constructor
        · intro _; omega
        · intro _; rfl
      next hbrk =>
        simp only [decide_eq_true_eq, List.length_append, List.length_cons,
          List.length_nil] at hbrk
        refine Or.inr ⟨_, rfl, hne, ?_⟩
        constructor
        · intro h; exact Bool.noConfusion h
        · intro h; omega
    next _ => exact Or.inl ⟨rfl, rfl⟩
  · exact Or.inl ⟨rfl, rfl⟩

/-- The noise-suppression invariant survives the whole scan. -/
theorem scanU_noise (maxE : Nat) :
    ∀ (lines : List Str) (st : UState),
      (∀ x ∈ st.failedTests, x.message ≠ [] ∨ x.stackTrace ≠ []) →
      ∀ x ∈ (scanU maxE lines st).failedTests, x.message ≠ [] ∨ x.stackTrace ≠ [] := by
  intro lines
  induction lines with
  | nil => intro st h; exact h
  | cons line rest ih =>
    intro st h
    simp only [scanU]
    split
    · exact ih _ h
    · split
      · split
        next t heq =>
          rcases stepBody_failedTests_spec maxE line rest st t with
            ⟨hsame, hbrk⟩ | ⟨t5, happ, hP, hiff⟩
          · rw [hbrk]
            simp only [Bool.false_eq_true, if_false]
            apply ih
            rw [hsame]
            exact h
          · have hmem : ∀ x ∈ (stepBody maxE line rest st t).1.failedTests,
                x.message ≠ [] ∨ x.stackTrace ≠ [] := by
              intro x hx
              rw [happ] at hx
              rcases List.mem_append.mp hx with hin | hone
              · exact h x hin
              · rw [List.mem_singleton] at hone
                subst hone
                exact hP
            split
            · exact hmem
            · exact ih _ hmem
        next heq => exact ih _ h
      · exact ih _ h

/-- The cap invariant of the unity scan: if the retained list is strictly
below the cap, it never exceeds the cap. -/
theorem scanU_cap (maxE : Nat) :
    ∀ (lines : List Str) (st : UState),
      st.failedTests.length < maxE →
      (scanU maxE lines st).failedTests.length ≤ maxE := by
  intro lines
  induction lines with
  | nil => intro st h; exact Nat.le_of_lt h
  | cons line rest ih =>
    intro st h
    simp only [scanU]
    split
    · exact ih _ h
    · split
      · split
        next t heq =>
          rcases stepBody_failedTests_spec maxE line rest st t with
            ⟨hsame, hbrk⟩ | ⟨t5, happ, _, hiff⟩
          · rw [hbrk]
            simp only [Bool.false_eq_true, if_false]
            apply ih
            rw [hsame]
            exact h
          · split
            next hb =>
              rw [happ]
              simp only [List.length_append, List.length_cons, List.length_nil]
              omega
            next hb =>
              apply ih
              rw [happ]
              simp only [List.length_append, List.length_cons, List.length_nil]
              have : ¬ (maxE ≤ st.failedTests.length + 1) := by
                intro hc
                exact hb (hiff.mpr hc)
              omega
        next heq => exact ih _ h
      · exact ih _ h

/-- Claim C1 (amended).  In the GUI server's test-results extractor
(`filterUnityTestResults`), every retained failed test has a non-empty
message or a non-empty stack trace — a failed marker with no diagnostic
content is dropped when its test-case closes.  The MCP extractor
(`localFilterUnityTestResults`) retains every matched failed test-case
unconditionally, diagnostics or not (see the counterexample). -/
theorem claim1_noise_suppression_amended (text : Str) (maxE : Nat) :
    ∀ x ∈ (filterUnityTestResultsCore text maxE).failedTests,
      x.message ≠ [] ∨ x.stackTrace ≠ [] := by
  intro x hx
  exact scanU_noise maxE (splitNL text) {}
    (fun y hy => absurd hy (List.not_mem_nil y)) x hx

/-- Witness for claim C1's amended theorem: the retained test of a concrete
document, produced by the extractor, has a non-empty message. -/
theorem claim1_witness :
    ({ name := some "T1".data, fullname := some "NS.T1".data,
       message := "Expected 1 but was 0".data, stackTrace := [],
       output := [] } : UTest).message ≠ [] ∨
    ({ name := some "T1".data, fullname := some "NS.T1".data,
       message := "Expected 1 but was 0".data, stackTrace := [],
       output := [] } : UTest).stackTrace ≠ [] :=
  claim1_noise_suppression_amended
    ("<?xml version=\"1.0\"?>\n<test-run total=\"1\" passed=\"0\" failed=\"1\" skipped=\"0\">\n  <test-case name=\"T1\" fullname=\"NS.T1\" result=\"Failed\">\n    <message><![CDATA[Expected 1 but was 0]]></message>\n  </test-case>\n</test-run>").data
    9999 _ (by decide)

set_option maxRecDepth 40000 in
/-- Claim C1 counterexample.  The MCP test-results extractor retains a
failed test-case whose message and stack trace are both empty — refuting
the claim for that extractor. -/
theorem claim1_counterexample :
    (localFilterUnityFailedTests
      ("<?xml version=\"1.0\"?>\n<test-run total=\"1\" passed=\"0\" failed=\"1\" skipped=\"0\">\n  <test-case name=\"T1\" result=\"Failed\">\n  </test-case>\n</test-run>").data
      100).map (fun t => (t.name, t.message, t.stackTrace)) =
    [("T1".data, [], [])] := by
  decide

/-- Claim C3 (amended).  Both build-log extractors always respect their
caps; the GUI test-results extractor respects `maxErrors` whenever
`maxErrors ≥ 1` (at `maxErrors = 0` it can retain one test, because the
cap is only checked after a push — see the counterexample). -/
theorem claim3_caps_amended :
    (∀ (text : Str) (o : BLOpts),
      (filterBuildLogCore text o).errors.length ≤ o.maxErrors ∧
      (filterBuildLogCore text o).warnings.length ≤ o.maxWarnings) ∧
    (∀ (text : Str) (o : McpBLOpts),
      (localFilterBuildLogCore text o).errors.length ≤ o.maxErrors ∧
      (localFilterBuildLogCore text o).warnings.length ≤ o.maxWarnings) ∧
    (∀ (text : Str) (maxE : Nat), 1 ≤ maxE →
      (filterUnityTestResultsCore text maxE).failedTests.length ≤ maxE) := by
  refine ⟨?_, ?_, ?_⟩
  · intro text o
    exact ⟨(filterBuildLogCore_counts text o).2.2.1,
      (filterBuildLogCore_counts text o).2.2.2⟩
  · intro text o
    exact localFilterBuildLog_caps text o
  · intro text maxE h
    exact scanU_cap maxE (splitNL text) {} (by simpa using h)

set_option maxRecDepth 40000 in
/-- Claim C3 counterexample.  With `maxErrors = 0` the GUI test-results
extractor still retains one failed test (`break` is checked only after the
push), so the failed-test list exceeds the cap. -/
theorem claim3_counterexample :
    (filterUnityTestResultsCore
      ("<?xml version=\"1.0\"?>\n<test-run total=\"1\" passed=\"0\" failed=\"1\" skipped=\"0\">\n  <test-case name=\"T1\" result=\"Failed\">\n    <message><![CDATA[boom]]></message>\n  </test-case>\n</test-run>").data
      0).failedTests.length = 1 := by
  decide

/-- Witness for claim C3's amended theorem at a concrete input. -/
theorem claim3_witness :
    1 ≤ 1 ∧
    (filterUnityTestResultsCore
      ("<?xml version=\"1.0\"?>\n<test-run>\n  <test-case name=\"T1\" result=\"Failed\">\n    <message><![CDATA[boom]]></message>\n  </test-case>\n</test-run>").data
      1).failedTests.length ≤ 1 :=
  ⟨by decide, claim3_caps_amended.2.2 _ 1 (by decide)⟩

set_option maxRecDepth 40000 in
/-- Claim C6 (amended).  The GUI test-results extractor reads the summary
once via the single combined fixed-order pattern; when it fails to match,
the parsed totals (`total`, `passed`, `skipped`, and the parsed `failed`
count) are all 0 and no error is raised — but the summary's `failed` field
is always the retained-test count, not the parsed value.  The MCP extractor
has no combined pattern: it reads the `total`, `passed`, `failed` and
`skipped` attributes of the first test-run tag with four independent
per-attribute matches, demonstrated here at a document whose attributes
are in a different order than the GUI pattern requires — the combined
pattern fails on that document while the MCP matches recover all four
declared counts. -/
theorem claim6_summary_fallback_amended :
    (∀ (text : Str) (maxE : Nat), combinedSummary text = none →
      (filterUnityTestResultsCore text maxE).summary.totalTests = 0 ∧
      (filterUnityTestResultsCore text maxE).summary.passed = 0 ∧
      (filterUnityTestResultsCore text maxE).summary.skipped = 0 ∧
      parsedFailedCount text = 0 ∧
      (filterUnityTestResultsCore text maxE).summary.failed =
        (filterUnityTestResultsCore text maxE).failedTests.length) ∧
    combinedSummary
      ("<?xml version=\"1.0\"?>\n<test-run failed=\"2\" total=\"5\" passed=\"3\" skipped=\"0\">\n</test-run>").data = none ∧
    localFilterUnitySummary
      ("<?xml version=\"1.0\"?>\n<test-run failed=\"2\" total=\"5\" passed=\"3\" skipped=\"0\">\n</test-run>").data =
      { totalTests := 5, passed := 3, failed := 2, skipped := 0 } := by
  refine ⟨?_, by decide, by decide⟩
  intro text maxE h
  refine ⟨?_, ?_, ?_, ?_, rfl⟩ <;>
    simp [filterUnityTestResultsCore, parsedFailedCount, h]

set_option maxRecDepth 40000 in
/-- Claim C6 counterexample.  On a document whose root attributes are in a
different order, the combined pattern fails to match, yet the MCP summary
parses `total = 5` and the GUI summary's `failed` field is the retained
count 1 — so "all four summary fields are 0" is false. -/
theorem claim6_counterexample :
    combinedSummary
      ("<?xml version=\"1.0\"?>\n<test-run failed=\"2\" total=\"5\" passed=\"3\" skipped=\"0\">\n  <test-case name=\"T1\" result=\"Failed\">\n    <message><![CDATA[boom]]></message>\n  </test-case>\n</test-run>").data = none ∧
    (localFilterUnitySummary
      ("<?xml version=\"1.0\"?>\n<test-run failed=\"2\" total=\"5\" passed=\"3\" skipped=\"0\">\n  <test-case name=\"T1\" result=\"Failed\">\n    <message><![CDATA[boom]]></message>\n  </test-case>\n</test-run>").data).totalTests = 5 ∧
    (filterUnityTestResultsCore
      ("<?xml version=\"1.0\"?>\n<test-run failed=\"2\" total=\"5\" passed=\"3\" skipped=\"0\">\n  <test-case name=\"T1\" result=\"Failed\">\n    <message><![CDATA[boom]]></message>\n  </test-case>\n</test-run>").data
      9999).summary.failed = 1 := by
  refine ⟨by decide, by decide, by decide⟩

/-- Witness for claim C6's amended theorem at a concrete input. -/
theorem claim6_witness :
    combinedSummary ("<test-run skipped=\"1\" total=\"4\">").data = none ∧
    ((filterUnityTestResultsCore ("<test-run skipped=\"1\" total=\"4\">").data
        9999).summary.totalTests = 0 ∧
      (filterUnityTestResultsCore ("<test-run skipped=\"1\" total=\"4\">").data
        9999).summary.passed = 0 ∧
      (filterUnityTestResultsCore ("<test-run skipped=\"1\" total=\"4\">").data
        9999).summary.skipped = 0 ∧
      parsedFailedCount ("<test-run skipped=\"1\" total=\"4\">").data = 0 ∧
      (filterUnityTestResultsCore ("<test-run skipped=\"1\" total=\"4\">").data
        9999).summary.failed =
        (filterUnityTestResultsCore ("<test-run skipped=\"1\" total=\"4\">").data
          9999).failedTests.length) :=
  ⟨by decide, claim6_summary_fallback_amended.1 _ 9999 (by decide)⟩

/-- Claim C9 (amended).  Both renderers are deterministic given the
structured result, the options and the clock reading: two renders are
byte-identical precisely when their `# Generated:` clock readings are
equal.  (Rendering the "same result twice" at different times differs —
see the counterexample.) -/
theorem claim9_render_clock_determinism (res : BLResult) (ff : Option Str)
    (ures : UResult) (sst so : Bool) (t1 t2 : Str) :
    (renderBuildLogText res ff t1 = renderBuildLogText res ff t2 ↔ t1 = t2) ∧
    (renderUnityText ures sst so t1 = renderUnityText ures sst so t2 ↔ t1 = t2) := by
  constructor
  · constructor
    · intro h
      refine render_inj_core (renderBLHead res ff) (renderBLTail res)
        "# Generated: ".data t1 t2 ?_ ?_ h
      · simp [renderBLHead]
      · simp [renderBLTail]
    · intro h; rw [h]
  · constructor
    · intro h
      refine render_inj_core (renderUHead ures) (renderUTail ures sst so)
        "# Generated: ".data t1 t2 ?_ ?_ h
      · simp [renderUHead]
      · simp [renderUTail]
    · intro h; rw [h]

/-- Claim C9 counterexample.  Rendering the same structured result with the
same options at two different clock readings yields different text — the
`# Generated: new Date().toISOString()` line depends on the wall clock, so
two runs are not byte-identical. -/
theorem claim9_counterexample :
    renderBuildLogText
      { summary := { totalLines := 1, errorCount := 0, warningCount := 0,
                     filteredLines := 0 },
        errors := [], warnings := [], files := [] } none
      "2024-01-01T00:00:00.000Z".data ≠
    renderBuildLogText
      { summary := { totalLines := 1, errorCount := 0, warningCount := 0,
                     filteredLines := 0 },
        errors := [], warnings := [], files := [] } none
      "2024-01-01T00:00:00.001Z".data := by
  decide

/-- `messageUpd` is the identity when the trimmed line has no `<message>`
marker. -/
theorem messageUpd_none (line trimmed : Str) (rest : List Str) (t : UTest)
    (h : jsIncludes trimmed "<message>".data = false) :
    messageUpd line trimmed rest t = t := by
  simp only [messageUpd, h, Bool.false_eq_true, if_false]

/-- The lookahead (the lines after the current one) is consulted only by the
multi-line `<message>` branch; without a `<message>` marker the step is
independent of it. -/
theorem stepBody_rest_irrelevant (maxE : Nat) (l : Str) (rest : List Str)
    (st : UState) (t : UTest)
    (h : jsIncludes (jsTrim l) "<message>".data = false) :
    stepBody maxE l rest st t = stepBody maxE l [] st t := by
  simp only [stepBody, messageUpd_none l (jsTrim l) rest t h,
    messageUpd_none l (jsTrim l) [] t h]

/-- Once a closing line pushes the retained list up to `maxErrors`, the scan
returns at once: the remaining lines of the input are not examined and
cannot affect the result. -/
theorem scanU_early_stop (maxE : Nat) (l : Str) (st : UState) (t : UTest)
    (h1 : st.inFailed = true) (h2 : st.current = some t)
    (h3 : jsIncludes (jsTrim l) "<test-case".data = false)
    (h4 : jsIncludes (jsTrim l) "<message>".data = false)
    (h5 : (stepBody maxE l [] st t).2 = true) :
    ∀ rest : List Str, scanU maxE (l :: rest) st = (stepBody maxE l [] st t).1 := by
  intro rest
  simp only [scanU, h3, Bool.false_and, Bool.false_eq_true, if_false, h1,
    if_true, h2]
  rw [stepBody_rest_irrelevant maxE l rest st t h4]
  simp only [h5, if_true]

/-- Claim C5 (amended).  In the GUI build-log pipeline the scan continues
past the error cap — the retained warnings and the declared warning count
are unaffected by `maxErrors` — but its declared counts are capped together
with the retained lists; the continue-and-count behaviour (declared counts
growing past the caps) belongs to the MCP build-log pipeline, whose declared
error count equals the total number of error-matching lines regardless of
`maxErrors`.  In the test-results pipeline, once a closing line fills the
retained list to `maxErrors`, the scan returns immediately and the remaining
input is ignored. -/
theorem claim5_cap_discipline_amended :
    (∀ (text : Str) (o : BLOpts) (m : Nat),
      (filterBuildLogCore text { o with maxErrors := m }).warnings =
        (filterBuildLogCore text o).warnings ∧
      (filterBuildLogCore text { o with maxErrors := m }).summary.warningCount =
        (filterBuildLogCore text o).summary.warningCount) ∧
    (∀ (text : Str) (o : McpBLOpts),
      (localFilterBuildLogCore text o).errorCount =
        (splitNL text).countP isErrMcp) ∧
    (∀ (maxE : Nat) (l : Str) (st : UState) (t : UTest),
      st.inFailed = true → st.current = some t →
      jsIncludes (jsTrim l) "<test-case".data = false →
      jsIncludes (jsTrim l) "<message>".data = false →
      (stepBody maxE l [] st t).2 = true →
      ∀ rest : List Str,
        scanU maxE (l :: rest) st = (stepBody maxE l [] st t).1) :=
  ⟨fun text o m => filterBuildLog_warnings_indep text o m,
   localFilterBuildLog_errorCount, scanU_early_stop⟩

/-- Claim C5 counterexample.  In the GUI build-log extractor with
`maxErrors = 1` and two error lines, the declared error count stays at 1:
the declared counts do NOT keep growing after the retained list is full. -/
theorem claim5_counterexample :
    isErrServer "error C2: y".data = true ∧
    (filterBuildLogCore "error C1: x\nerror C2: y".data
      { maxErrors := 1 }).summary.errorCount = 1 ∧
    (filterBuildLogCore "error C1: x\nerror C2: y".data
      { maxErrors := 1 }).errors.length = 1 := by
  decide

/-- Witness for claim C5's amended theorem: a concrete closing line fills
the retained list to the cap and the scanner discards the rest of the
input. -/
theorem claim5_witness :
    (stepBody 1 "</test-case>".data []
      { inFailed := true,
        current := some { name := some "T".data, fullname := none,
                          message := "m".data, stackTrace := [], output := [] },
        captureStack := false, captureOutput := false, currentIndent := 0,
        failedTests := [], files := [] }
      { name := some "T".data, fullname := none, message := "m".data,
        stackTrace := [], output := [] }).2 = true ∧
    scanU 1 ("</test-case>".data :: ["ERROR: ignored".data])
      { inFailed := true,
        current := some { name := some "T".data, fullname := none,
                          message := "m".data, stackTrace := [], output := [] },
        captureStack := false, captureOutput := false, currentIndent := 0,
        failedTests := [], files := [] } =
    (stepBody 1 "</test-case>".data []
      { inFailed := true,
        current := some { name := some "T".data, fullname := none,
                          message := "m".data, stackTrace := [], output := [] },
        captureStack := false, captureOutput := false, currentIndent := 0,
        failedTests := [], files := [] }
      { name := some "T".data, fullname := none, message := "m".data,
        stackTrace := [], output := [] }).1 :=
  ⟨by decide,
   claim5_cap_discipline_amended.2.2 1 "</test-case>".data
     { inFailed := true,
       current := some { name := some "T".data, fullname := none,
                         message := "m".data, stackTrace := [], output := [] },
       captureStack := false, captureOutput := false, currentIndent := 0,
       failedTests := [], files := [] }
     { name := some "T".data, fullname := none, message := "m".data,
       stackTrace := [], output := [] }
     rfl rfl (by decide) (by decide) (by decide) ["ERROR: ignored".data]⟩

/-! ## Claim C7: multi-line CDATA reconstruction -/

theorem takeWhile_append_all {α : Type _} (p : α → Bool) (xs : List α) (y : α)
    (ys : List α) (hx : ∀ x ∈ xs, p x = true) (hy : p y = false) :
    (xs ++ y :: ys).takeWhile p = xs := by
  induction xs with
  | nil => simp [List.takeWhile_cons, hy]
  | cons a t ih =>
    have ha : p a = true := hx a (List.mem_cons_self _ _)
    simp only [List.cons_append, List.takeWhile_cons, ha, if_true]
    rw [ih (fun x hx' => hx x (List.mem_cons_of_mem _ hx'))]

theorem dropWhile_append_all {α : Type _} (p : α → Bool) (xs : List α) (y : α)
    (ys : List α) (hx : ∀ x ∈ xs, p x = true) (hy : p y = false) :
    (xs ++ y :: ys).dropWhile p = y :: ys := by
  induction xs with
  | nil => simp [List.dropWhile_cons, hy]
  | cons a t ih =>
    have ha : p a = true := hx a (List.mem_cons_self _ _)
    simp only [List.cons_append, List.dropWhile_cons, ha, if_true]
    exact ih (fun x hx' => hx x (List.mem_cons_of_mem _ hx'))

theorem stackOpenUpd_none (line trimmed : Str) (t : UTest) (cs : Bool)
    (h : jsIncludes trimmed "<stack-trace>".data = false) :
    stackOpenUpd line trimmed t cs = (t, cs) := by
  simp [stackOpenUpd, h]

theorem stackCapUpd_false (trimmed : Str) (t : UTest) :
    stackCapUpd trimmed t false = (t, false) := by
  simp [stackCapUpd]

theorem outputOpenUpd_none (line trimmed : Str) (t : UTest) (co : Bool)
    (h : jsIncludes trimmed "<output>".data = false) :
    outputOpenUpd line trimmed t co = (t, co) := by
  simp [outputOpenUpd, h]

theorem outputCapUpd_false (trimmed : Str) (t : UTest) :
    outputCapUpd trimmed t false = (t, false) := by
  simp [outputCapUpd]

theorem filesUpd_empty (t : UTest) (files : List Str) (h : t.stackTrace = []) :
    filesUpd t files = files := by
  simp [filesUpd, h]

theorem stepBody_inert (maxE : Nat) (l : Str) (rest : List Str) (st : UState)
    (t : UTest) (hI : InertLine l) (hcs : st.captureStack = false)
    (hco : st.captureOutput = false) (hstk : t.stackTrace = []) :
    stepBody maxE l rest st t = ({ st with current := some t }, false) := by
  obtain ⟨hTC, hMsg, hST, hOT, hClose, hPfx⟩ := hI
  rcases st with ⟨inF, cur, cs, co, ind, fts, fls⟩
  simp only at hcs hco
  subst hcs
  subst hco
  simp only [stepBody, messageUpd_none l (jsTrim l) rest t hMsg,
    stackOpenUpd_none l (jsTrim l) t false hST, stackCapUpd_false,
    outputOpenUpd_none l (jsTrim l) t false hOT, outputCapUpd_false,
    filesUpd_empty t fls hstk, hClose, hPfx, Bool.false_and, Bool.or_false,
    Bool.false_eq_true, if_false]

theorem UState_set_current_self (st : UState) (t : UTest)
    (h : st.current = some t) : { st with current := some t } = st := by
  rcases st with ⟨inF, cur, cs, co, ind, fts, fls⟩
  simp only at h
  rw [← h]

theorem scanU_inert (maxE : Nat) (l : Str) (rest : List Str) (st : UState)
    (t : UTest) (hI : InertLine l) (hcs : st.captureStack = false)
    (hco : st.captureOutput = false) (hstk : t.stackTrace = [])
    (h2 : st.inFailed = true) (h2' : st.current = some t) :
    scanU maxE (l :: rest) st = scanU maxE rest st := by
  simp only [scanU, hI.1, Bool.false_and, Bool.false_eq_true, if_false, h2,
    if_true, h2']
  rw [stepBody_inert maxE l rest st t hI hcs hco hstk]
  simp only [Bool.false_eq_true, if_false]
  rw [UState_set_current_self st t h2']

theorem scanU_inert_list (maxE : Nat) (inner : List Str) (tail : List Str)
    (st : UState) (t : UTest) (hin : ∀ l ∈ inner, InertLine l)
    (hcs : st.captureStack = false) (hco : st.captureOutput = false)
    (hstk : t.stackTrace = []) (h2 : st.inFailed = true)
    (h2' : st.current = some t) :
    scanU maxE (inner ++ tail) st = scanU maxE tail st := by
  induction inner with
  | nil => rfl
  | cons l rest ih =>
    rw [List.cons_append,
      scanU_inert maxE l (rest ++ tail) st t (hin l (List.mem_cons_self _ _))
        hcs hco hstk h2 h2']
    exact ih (fun x hx => hin x (List.mem_cons_of_mem _ hx))

theorem messageUpd_multiline (inner tail1 : List Str) (t : UTest)
    (hin : ∀ l ∈ inner, jsIncludes l "]]>".data = false) :
    messageUpd "<message><![CDATA[".data (jsTrim "<message><![CDATA[".data)
      (inner ++ "]]></message>".data :: tail1) t =
    { t with message := joinNL (inner.map jsTrim) } := by
  have htake := takeWhile_append_all (fun l => !jsIncludes l "]]>".data) inner
    "]]></message>".data tail1 (fun x hx => by simp only [hin x hx]; rfl) (by decide)
  have hdrop := dropWhile_append_all (fun l => !jsIncludes l "]]>".data) inner
    "]]></message>".data tail1 (fun x hx => by simp only [hin x hx]; rfl) (by decide)
  simp only [messageUpd]
  rw [if_pos (by decide :
    jsIncludes (jsTrim "<message><![CDATA[".data) "<message>".data = true)]
  rw [show jsIndexOf "<message><![CDATA[".data "<![CDATA[".data = some 9 from
    by decide]
  dsimp only
  rw [if_neg (by decide :
    ¬ jsIncludes (("<message><![CDATA[".data : Str).drop (9 + 9)) "]]>".data = true)]
  rw [htake, hdrop]
  dsimp only
  rw [if_pos (by decide :
    (jsTrim (("<message><![CDATA[".data : Str).drop (9 + 9))).isEmpty = true)]
  rw [if_pos (by decide :
    (jsTrim (takeBefore "]]></message>".data "]]>".data)).isEmpty = true)]
  simp

theorem stepBody_msgline (maxE : Nat) (st : UState) (t : UTest)
    (inner tail1 : List Str) (hcs : st.captureStack = false)
    (hco : st.captureOutput = false) (hstk : t.stackTrace = [])
    (hin : ∀ l ∈ inner, jsIncludes l "]]>".data = false) :
    stepBody maxE "<message><![CDATA[".data
      (inner ++ "]]></message>".data :: tail1) st t =
    ({ st with
       current := some { t with message := joinNL (inner.map jsTrim) } },
     false) := by
  rcases st with ⟨inF, cur, cs, co, ind, fts, fls⟩
  simp only at hcs hco
  subst hcs
  subst hco
  have hfiles : filesUpd
      ({ t with message := joinNL (inner.map jsTrim) } : UTest) fls = fls :=
    filesUpd_empty _ fls hstk
  have hst : jsIncludes (jsTrim "<message><![CDATA[".data)
      "<stack-trace>".data = false := by decide
  have hot : jsIncludes (jsTrim "<message><![CDATA[".data)
      "<output>".data = false := by decide
  have hc1 : jsIncludes (jsTrim "<message><![CDATA[".data)
      "</test-case>".data = false := by decide
  have hc2 : isPfx "</".data (jsTrim "<message><![CDATA[".data) = false := by
    decide
  simp only [stepBody, messageUpd_multiline inner tail1 t hin,
    stackOpenUpd_none, stackCapUpd_false, outputOpenUpd_none,
    outputCapUpd_false, hst, hot, hc1, hc2, hfiles,
    Bool.false_and, Bool.or_false, Bool.false_eq_true, if_false]

theorem scanU_close (maxE : Nat) (st : UState) (t : UTest)
    (hcs : st.captureStack = false) (hco : st.captureOutput = false)
    (hstk : t.stackTrace = []) (hm : t.message ≠ [])
    (h2 : st.inFailed = true) (h2' : st.current = some t) :
    (scanU maxE ["</test-case>".data] st).failedTests =
      st.failedTests ++ [t] := by
  have hr : (stepBody maxE "</test-case>".data [] st t).1.failedTests =
      st.failedTests ++ [t] := by
    rcases st with ⟨inF, cur, cs, co, ind, fts, fls⟩
    simp only at hcs hco
    subst hcs
    subst hco
    have hmsg0 : jsIncludes (jsTrim "</test-case>".data) "<message>".data
        = false := by decide
    have hst : jsIncludes (jsTrim "</test-case>".data) "<stack-trace>".data
        = false := by decide
    have hot : jsIncludes (jsTrim "</test-case>".data) "<output>".data
        = false := by decide
    have hcl : jsIncludes (jsTrim "</test-case>".data) "</test-case>".data
        = true := by decide
    have hp : (!t.message.isEmpty || !t.stackTrace.isEmpty) = true := by
      simp only [Bool.or_eq_true, Bool.not_eq_true', List.isEmpty_eq_false]
      exact Or.inl hm
    simp only [stepBody, messageUpd_none, hmsg0, stackOpenUpd_none,
      stackCapUpd_false, outputOpenUpd_none, outputCapUpd_false, hst, hot,
      filesUpd_empty, hstk, hcl, Bool.true_or, if_true,
      List.isEmpty_nil, Bool.not_true, Bool.or_false,
      (show t.message.isEmpty = false by
        simp only [List.isEmpty_eq_false]; exact hm),
      Bool.not_false]
    split <;> rfl
  simp only [scanU]
  rw [if_neg (by decide :
    ¬ (jsIncludes (jsTrim "</test-case>".data) "<test-case".data &&
       jsIncludes (jsTrim "</test-case>".data) "result=\"Failed\"".data) = true)]
  rw [if_pos h2, h2']
  cases hb : (stepBody maxE "</test-case>".data [] st t).2
  · simp only [hb, Bool.false_eq_true, if_false, scanU]
    exact hr
  · simp only [hb, if_true]
    exact hr

/-- Claim C7 (amended).  In the GUI server's line-scanner extractor
(`server.js` `filterUnityTestResults`), a failed test whose message CDATA
spans multiple raw lines has its message reconstructed as the inner lines
EACH TRIMMED OF SURROUNDING WHITESPACE, joined by newlines (with
whitespace-only opening/closing fragments dropped) — not as the verbatim
inner text with only the marker tokens removed.  The MCP extractor behaves
differently again: it trims the CDATA payload once as a whole and keeps
interior line indentation (see the counterexample, which exhibits both
behaviours). -/
theorem claim7_multiline_cdata_amended (maxE : Nat) (inner : List Str)
    (hin : ∀ l ∈ inner, InertLine l ∧ jsIncludes l "]]>".data = false)
    (hmsg : joinNL (inner.map jsTrim) ≠ []) :
    (scanU maxE ("<test-case name=\"T\" result=\"Failed\">".data ::
        "<message><![CDATA[".data ::
        (inner ++ ["]]></message>".data, "</test-case>".data])) {}).failedTests =
      [{ name := some "T".data, fullname := none,
         message := joinNL (inner.map jsTrim), stackTrace := [],
         output := [] }] := by
  have hstep1 : scanU maxE ("<test-case name=\"T\" result=\"Failed\">".data ::
      "<message><![CDATA[".data ::
      (inner ++ ["]]></message>".data, "</test-case>".data])) {} =
      scanU maxE ("<message><![CDATA[".data ::
        (inner ++ ["]]></message>".data, "</test-case>".data]))
        { inFailed := true,
          current := some { name := some "T".data, fullname := none,
                            message := [], stackTrace := [], output := [] },
          captureStack := false, captureOutput := false, currentIndent := 0,
          failedTests := [], files := [] } := rfl
  rw [hstep1]
  have hstep2 : scanU maxE ("<message><![CDATA[".data ::
      (inner ++ ["]]></message>".data, "</test-case>".data]))
      { inFailed := true,
        current := some { name := some "T".data, fullname := none,
                          message := [], stackTrace := [], output := [] },
        captureStack := false, captureOutput := false, currentIndent := 0,
        failedTests := [], files := [] } =
      scanU maxE (inner ++ ["]]></message>".data, "</test-case>".data])
      { inFailed := true,
        current := some { name := some "T".data, fullname := none,
                          message := joinNL (inner.map jsTrim),
                          stackTrace := [], output := [] },
        captureStack := false, captureOutput := false, currentIndent := 0,
        failedTests := [], files := [] } := by
    simp only [scanU]
    rw [if_neg (by decide :
      ¬ (jsIncludes (jsTrim "<message><![CDATA[".data) "<test-case".data &&
         jsIncludes (jsTrim "<message><![CDATA[".data)
           "result=\"Failed\"".data) = true)]
    rw [stepBody_msgline maxE _ _ inner ["</test-case>".data] rfl rfl rfl
      (fun l hl => (hin l hl).2)]
    simp
  rw [hstep2]
  rw [scanU_inert_list maxE inner ["]]></message>".data, "</test-case>".data]
    _ { name := some "T".data, fullname := none,
        message := joinNL (inner.map jsTrim), stackTrace := [], output := [] }
    (fun l hl => (hin l hl).1) rfl rfl rfl rfl rfl]
  rw [scanU_inert maxE "]]></message>".data ["</test-case>".data]
    _ { name := some "T".data, fullname := none,
        message := joinNL (inner.map jsTrim), stackTrace := [], output := [] }
    (by decide) rfl rfl rfl rfl rfl]
  rw [scanU_close maxE
    _ { name := some "T".data, fullname := none,
        message := joinNL (inner.map jsTrim), stackTrace := [], output := [] }
    rfl rfl rfl hmsg rfl rfl]
  rfl

set_option maxRecDepth 40000 in
/-- Claim C7 counterexample.  With indented inner CDATA lines the GUI
extractor returns `"line one\nline two"` — the indentation is stripped by
the per-line `trim`, so the message is NOT the inner text with only the
marker tokens removed (which would be `"  line one\n  line two"`).  On the
same payload the MCP extractor trims only the whole payload, keeping the
second line's interior indentation: `"line one\n  line two"`.  So neither
cited extractor reconstructs the payload verbatim, and the two do not even
agree with each other. -/
theorem claim7_counterexample :
    ((filterUnityTestResultsCore
      ("<test-case name=\"T1\" result=\"Failed\">\n<message><![CDATA[\n  line one\n  line two\n]]></message>\n</test-case>").data
      9999).failedTests.map (fun t => t.message)) =
      ["line one\nline two".data] ∧
    "line one\nline two".data ≠ "  line one\n  line two".data ∧
    ((localFilterUnityFailedTests
      ("<test-case name=\"T1\" result=\"Failed\">\n<message><![CDATA[\n  line one\n  line two\n]]></message>\n</test-case>").data
      9999).map (fun t => t.message)) =
      ["line one\n  line two".data] ∧
    "line one\n  line two".data ≠ "  line one\n  line two".data := by
  refine ⟨by decide, by decide, by decide, by decide⟩

/-- Witness for claim C7's amended theorem at concrete inner lines. -/
theorem claim7_witness :
    (scanU 9999 ("<test-case name=\"T\" result=\"Failed\">".data ::
        "<message><![CDATA[".data ::
        (["  line one".data, "  line two".data] ++
          ["]]></message>".data, "</test-case>".data])) {}).failedTests =
      [{ name := some "T".data, fullname := none,
         message := joinNL (["  line one".data, "  line two".data].map jsTrim),
         stackTrace := [], output := [] }] :=
  claim7_multiline_cdata_amended 9999 _ (by decide) (by decide)

/-- Witness for claim C8's theorem at a concrete filtered input. -/
theorem claim8_witness :
    ({ fileFilters := ["Foo.cpp".data] } : BLOpts).fileFilters ≠ [] ∧
    (∃ p ∈ (splitNL "Foo.cpp(10): error C1: x\nBar.cpp(2): error C2: y".data).enum,
      ({ line := 1, message := "Foo.cpp(10): error C1: x".data } : BLRec).line
        = p.1 + 1 ∧
      fileOkB ({ fileFilters := ["Foo.cpp".data] } : BLOpts).fileFilters p.2
        = true) :=
  ⟨by decide,
   (claim8_file_filter_containment
     "Foo.cpp(10): error C1: x\nBar.cpp(2): error C2: y".data
     { fileFilters := ["Foo.cpp".data] } (by decide)).1
     { line := 1, message := "Foo.cpp(10): error C1: x".data } (by decide)⟩
